import Mathlib

/-!
Verification development for the GBEmu core: a shallow embedding of the
instruction decode/execute engine (src/gba/console.rs, src/gba/opcode.rs),
the register file with its overlapping 8/16-bit views (src/cpu/register.rs)
and the unified memory address space (src/mem/memory.rs).

Machine integers are modelled as `Nat` with explicit wrap-around (`% 256`
for `u8`, `% 65536` for `u16`), matching the release-profile wrapping
semantics of the Rust source.  Panics (`panic!`, out-of-range enum
conversions, accesses to unusable memory, ROM writes) are modelled as
`Option.none`.

The register file in the source overlays the eight 8-bit fields and the two
16-bit fields of `Registers` and reinterprets the struct as a `&[u8]` /
`&[u16]` slice (`as_u8_slice` / `as_u16_slice`).  The embedding fixes the
byte layout that this unsafe reinterpretation yields on the de-facto
target: fields in declaration order `b c d e h l a f sp pc` with no
padding, and little-endian 16-bit words, so byte `0` is `b`, byte `1` is
`c`, …, byte `8`/`9` are the low/high bytes of `sp`, and 16-bit word `i`
is `byte (2*i) + 256 * byte (2*i+1)`.
-/

namespace GB

/-- Wrapping 8-bit addition, the release-mode semantics of `u8` `+`. -/
def u8_add (a b : Nat) : Nat := (a + b) % 256

/-- Wrapping 8-bit subtraction, the release-mode semantics of `u8` `-`. -/
def u8_sub (a b : Nat) : Nat := if a < b then a + 256 - b else a - b

/-- Rust `u8::overflowing_add`: wrapped result and an overflow bit. -/
def u8_overflowing_add (a b : Nat) : Nat × Bool :=
  ((a + b) % 256, decide (256 ≤ a + b))

/-- Rust `u8::overflowing_sub`: wrapped result and a borrow bit. -/
def u8_overflowing_sub (a b : Nat) : Nat × Bool :=
  (if a < b then a + 256 - b else a - b, decide (a < b))

/-- Rust `u8::overflowing_shl`: the shift amount is taken mod 8 and the
overflow bit reports only whether the amount was ≥ 8 (never the shifted-out
bit). -/
def u8_overflowing_shl (a sh : Nat) : Nat × Bool :=
  ((a <<< (sh % 8)) % 256, decide (8 ≤ sh))

/-- Rust `u8::overflowing_shr`, analogous to `u8_overflowing_shl`. -/
def u8_overflowing_shr (a sh : Nat) : Nat × Bool :=
  (a >>> (sh % 8), decide (8 ≤ sh))

/-- Wrapping 16-bit addition, the release-mode semantics of `u16` `+`. -/
def u16_add (a b : Nat) : Nat := (a + b) % 65536

/-- Wrapping 16-bit subtraction, the release-mode semantics of `u16` `-`. -/
def u16_sub (a b : Nat) : Nat := if a < b then a + 65536 - b else a - b

/-- Rust `u16::overflowing_add`. -/
def u16_overflowing_add (a b : Nat) : Nat × Bool :=
  ((a + b) % 65536, decide (65536 ≤ a + b))

/-- Rust `u16::overflowing_sub`. -/
def u16_overflowing_sub (a b : Nat) : Nat × Bool :=
  (if a < b then a + 65536 - b else a - b, decide (a < b))

/-- Rust `!` (bitwise not) on a `u8` value. -/
def u8_not (m : Nat) : Nat := m ^^^ 0xFF

/-- The four processor flags of `register::types::Flags`. -/
inductive Flags where
  | Zero
  | Subtract
  | HalfCarry
  | Carry
deriving DecidableEq, Repr

/-- The `u8` discriminant of each flag (`Zero = 0x80`, …). -/
def Flags.toU8 : Flags → Nat
  | .Zero => 0x80
  | .Subtract => 0x40
  | .HalfCarry => 0x20
  | .Carry => 0x10

/-- Test of a single flag bit, `F8::is_set`. -/
def F8.is_set (f : Nat) (fl : Flags) : Bool := f &&& fl.toU8 != 0

/-- The 8-bit register selectors of `register::types::Register8`, in
discriminant order `B = 0, C, D, E, H, L, A, F, SPHigh, SPLow, PCHigh,
PCLow`. -/
inductive Register8 where
  | B | C | D | E | H | L | A | F | SPHigh | SPLow | PCHigh | PCLow
deriving DecidableEq, Repr

/-- The 16-bit register selectors of `register::types::Register16`, in
discriminant order `BC = 0, DE, HL, AF, SP, PC`. -/
inductive Register16 where
  | BC | DE | HL | AF | SP | PC
deriving DecidableEq, Repr

/-- The register file `Registers`: eight `u8` fields and two `u16`
fields, in declaration order. -/
structure Registers where
  b : Nat
  c : Nat
  d : Nat
  e : Nat
  h : Nat
  l : Nat
  a : Nat
  f : Nat
  sp : Nat
  pc : Nat
deriving DecidableEq, Repr

/-- Byte `i` of the register file under the overlay described in the file
header (`as_u8_slice`): bytes 0–7 are `b c d e h l a f`, bytes 8/9 the
little-endian halves of `sp`, bytes 10/11 those of `pc`.  `Registers::get_r8`
indexes this view with the `Register8` discriminant. -/
def Registers.get_r8 (r : Registers) : Register8 → Nat
  | .B => r.b
  | .C => r.c
  | .D => r.d
  | .E => r.e
  | .H => r.h
  | .L => r.l
  | .A => r.a
  | .F => r.f
  | .SPHigh => r.sp % 256
  | .SPLow => r.sp / 256 % 256
  | .PCHigh => r.pc % 256
  | .PCLow => r.pc / 256 % 256

/-- `Registers::set_r8`: store into byte `i` of the overlay. -/
def Registers.set_r8 (r : Registers) (reg : Register8) (v : Nat) : Registers :=
  match reg with
  | .B => { r with b := v % 256 }
  | .C => { r with c := v % 256 }
  | .D => { r with d := v % 256 }
  | .E => { r with e := v % 256 }
  | .H => { r with h := v % 256 }
  | .L => { r with l := v % 256 }
  | .A => { r with a := v % 256 }
  | .F => { r with f := v % 256 }
  | .SPHigh => { r with sp := r.sp / 256 % 256 * 256 + v % 256 }
  | .SPLow => { r with sp := v % 256 * 256 + r.sp % 256 }
  | .PCHigh => { r with pc := r.pc / 256 % 256 * 256 + v % 256 }
  | .PCLow => { r with pc := v % 256 * 256 + r.pc % 256 }

/-- `Registers::get_r16`: 16-bit word `i` of the overlay (`as_u16_slice`),
little-endian, indexed by the `Register16` discriminant.  Note that the
first-named register of a pair is the LOW byte of the word. -/
def Registers.get_r16 (r : Registers) : Register16 → Nat
  | .BC => r.b + 256 * r.c
  | .DE => r.d + 256 * r.e
  | .HL => r.h + 256 * r.l
  | .AF => r.a + 256 * r.f
  | .SP => r.sp % 65536
  | .PC => r.pc % 65536

/-- `Registers::set_r16`: store a 16-bit word into the overlay. -/
def Registers.set_r16 (r : Registers) (reg : Register16) (v : Nat) : Registers :=
  match reg with
  | .BC => { r with b := v % 256, c := v / 256 % 256 }
  | .DE => { r with d := v % 256, e := v / 256 % 256 }
  | .HL => { r with h := v % 256, l := v / 256 % 256 }
  | .AF => { r with a := v % 256, f := v / 256 % 256 }
  | .SP => { r with sp := v % 65536 }
  | .PC => { r with pc := v % 65536 }

/-- The decoder's 8-bit operand selector `opcode::types::OpcodeRegister8`,
in discriminant order `B = 0, C, D, E, H, L, HL, A` (`HL` is the
memory-indirect pseudo-register). -/
inductive OpcodeRegister8 where
  | B | C | D | E | H | L | HL | A
deriving DecidableEq, Repr

/-- `From<u8> for OpcodeRegister8`; panics (models as `none`) outside
`0..=7`. -/
def OpcodeRegister8.fromU8 : Nat → Option OpcodeRegister8
  | 0 => some .B
  | 1 => some .C
  | 2 => some .D
  | 3 => some .E
  | 4 => some .H
  | 5 => some .L
  | 6 => some .HL
  | 7 => some .A
  | _ => none

/-- `From<OpcodeRegister8> for Register8`: `HL` maps to `Register8::F`
(a by-position transmute artefact, dead in practice because every caller
filters out `HL` first), `A` maps to `Register8::A`, and the remaining
variants map by position. -/
def OpcodeRegister8.toRegister8 : OpcodeRegister8 → Register8
  | .HL => .F
  | .A => .A
  | .B => .B
  | .C => .C
  | .D => .D
  | .E => .E
  | .H => .H
  | .L => .L

/-- `opcode::types::OpcodeIndirectRegister16`, discriminants
`BC = 0, DE, HLInc, HLDec`. -/
inductive OpcodeIndirectRegister16 where
  | BC | DE | HLInc | HLDec
deriving DecidableEq, Repr

/-- `From<u8> for OpcodeIndirectRegister16`. -/
def OpcodeIndirectRegister16.fromU8 : Nat → Option OpcodeIndirectRegister16
  | 0 => some .BC
  | 1 => some .DE
  | 2 => some .HLInc
  | 3 => some .HLDec
  | _ => none

/-- `From<OpcodeIndirectRegister16> for Register16`. -/
def OpcodeIndirectRegister16.toRegister16 : OpcodeIndirectRegister16 → Register16
  | .BC => .BC
  | .DE => .DE
  | .HLInc => .HL
  | .HLDec => .HL

/-- `opcode::types::OpcodeRegister16`, discriminants `BC = 0, DE, HL, AF`. -/
inductive OpcodeRegister16 where
  | BC | DE | HL | AF
deriving DecidableEq, Repr

/-- `From<u8> for OpcodeRegister16`. -/
def OpcodeRegister16.fromU8 : Nat → Option OpcodeRegister16
  | 0 => some .BC
  | 1 => some .DE
  | 2 => some .HL
  | 3 => some .AF
  | _ => none

/-- `From<OpcodeRegister16> for Register16` (a by-position transmute). -/
def OpcodeRegister16.toRegister16 : OpcodeRegister16 → Register16
  | .BC => .BC
  | .DE => .DE
  | .HL => .HL
  | .AF => .AF

/-- `opcode::types::LoadDirection`. -/
inductive LoadDirection where
  | Memory
  | Accumulator
deriving DecidableEq, Repr

/-- `opcode::types::JumpCondition`. -/
inductive JumpCondition where
  | Always
  | SetFlag (fl : Flags)
  | UnsetFlag (fl : Flags)
deriving DecidableEq, Repr

/-- `opcode::types::MathOp`, discriminants `Add = 0, Adc, Sub, Sbc, And,
Xor, Or, Cp`. -/
inductive MathOp where
  | Add | Adc | Sub | Sbc | And | Xor | Or | Cp
deriving DecidableEq, Repr

/-- `From<u8> for MathOp`. -/
def MathOp.fromU8 : Nat → Option MathOp
  | 0 => some .Add
  | 1 => some .Adc
  | 2 => some .Sub
  | 3 => some .Sbc
  | 4 => some .And
  | 5 => some .Xor
  | 6 => some .Or
  | 7 => some .Cp
  | _ => none

/-- The instruction descriptors of `opcode::Opcode`. -/
inductive Opcode where
  | LoadR8 (dst src : OpcodeRegister8)
  | LoadImm8 (dst : OpcodeRegister8)
  | LoadIndR16 (src : OpcodeIndirectRegister16) (direction : LoadDirection)
  | LoadIndOffImm8 (direction : LoadDirection)
  | LoadIndOffRegC (direction : LoadDirection)
  | LoadIndImm16 (direction : LoadDirection)
  | LoadImm16 (dst : OpcodeRegister16)
  | LoadIndImm16SP
  | LoadSPHL
  | PushR16 (src : OpcodeRegister16)
  | PopR16 (dst : OpcodeRegister16)
  | LoadHLOffSp
  | MathR8 (op : MathOp) (src : OpcodeRegister8)
  | MathImm8 (op : MathOp)
  | IncR8 (reg : OpcodeRegister8)
  | DecR8 (reg : OpcodeRegister8)
  | ComplementCarryFlag
  | SetCarryFlag
  | DecimalAdjustAccumulator
  | ComplementAccumulator
  | IncR16 (src : OpcodeRegister16)
  | DecR16 (src : OpcodeRegister16)
  | AddR16 (src : OpcodeRegister16)
  | AddSPImm8
  | RotateLeftCircularAccumulator
  | RotateRightCircularAccumulator
  | RotateLeftAccumulator
  | RotateRightAccumulator
  | JumpImm16 (condition : JumpCondition)
  | JumpHL
  | JumpOffImm8 (condition : JumpCondition)
  | CallImm16 (condition : JumpCondition)
  | Return (condition : JumpCondition)
  | ReturnInterupt
  | Restart (vector : Nat)
  | Halt
  | Stop
  | DisableInterrupts
  | EnableInterrupts
  | Noop
deriving DecidableEq, Repr

/-- The opcode decoder `From<u8> for Opcode`.  The Rust match is translated
arm by arm in source order; `panic!` arms (`0xCB` and the uncaught cases)
become `none`.  `low` and `high` are the low and high nibbles of the byte. -/
def Opcode.fromU8 (value : Nat) : Option Opcode :=
  let low := value &&& 0x0F
  let high := value >>> 4
  if value = 0x00 then some .Noop
  else if value = 0x07 then some .RotateLeftCircularAccumulator
  else if value = 0x08 then some .LoadIndImm16SP
  else if value = 0x0F then some .RotateRightCircularAccumulator
  else if value = 0x10 then some .Stop
  else if value = 0x17 then some .RotateLeftAccumulator
  else if value = 0x1F then some .RotateRightAccumulator
  else if value = 0x20 then some (.JumpOffImm8 (.UnsetFlag .Zero))
  else if value = 0x27 then some .DecimalAdjustAccumulator
  else if value = 0x2F then some .ComplementAccumulator
  else if value = 0x30 then some (.JumpOffImm8 (.UnsetFlag .Carry))
  else if value = 0x37 then some .SetCarryFlag
  else if value = 0x3F then some .ComplementCarryFlag
  else if 0x40 ≤ value ∧ value ≤ 0x7F then do
    let dst ← OpcodeRegister8.fromU8 ((value &&& 0x38) >>> 3)
    let src ← OpcodeRegister8.fromU8 (value &&& 0x07)
    some (.LoadR8 dst src)
  else if 0x80 ≤ value ∧ value ≤ 0xBF then do
    let op ← MathOp.fromU8 ((value &&& 0x38) >>> 3)
    let src ← OpcodeRegister8.fromU8 (value &&& 0x07)
    some (.MathR8 op src)
  else if value = 0xC0 then some (.Return (.UnsetFlag .Zero))
  else if value = 0xC2 then some (.JumpImm16 (.UnsetFlag .Zero))
  else if value = 0xC3 then some (.JumpImm16 .Always)
  else if value = 0xC4 then some (.CallImm16 (.UnsetFlag .Zero))
  else if value = 0xC8 then some (.Return (.SetFlag .Zero))
  else if value = 0xC9 then some (.Return .Always)
  else if value = 0xCA then some (.JumpImm16 (.SetFlag .Zero))
  else if value = 0xCB then none
  else if value = 0xCC then some (.CallImm16 (.SetFlag .Zero))
  else if value = 0xCD then some (.CallImm16 .Always)
  else if value = 0xD0 then some (.Return (.UnsetFlag .Carry))
  else if value = 0xD2 then some (.JumpImm16 (.UnsetFlag .Carry))
  else if value = 0xD4 then some (.CallImm16 (.UnsetFlag .Carry))
  else if value = 0xD8 then some (.Return (.SetFlag .Carry))
  else if value = 0xD9 then some .ReturnInterupt
  else if value = 0xDA then some (.JumpImm16 (.SetFlag .Carry))
  else if value = 0xDC then some (.CallImm16 (.SetFlag .Carry))
  else if value = 0xE0 then some (.LoadIndOffImm8 .Memory)
  else if value = 0xE2 then some (.LoadIndOffRegC .Memory)
  else if value = 0xE8 then some .AddSPImm8
  else if value = 0xE9 then some .JumpHL
  else if value = 0xEA then some (.LoadIndImm16 .Memory)
  else if value = 0xF0 then some (.LoadIndOffImm8 .Accumulator)
  else if value = 0xF2 then some (.LoadIndOffRegC .Accumulator)
  else if value = 0xF3 then some .DisableInterrupts
  else if value = 0xF8 then some .LoadHLOffSp
  else if value = 0xF9 then some .LoadSPHL
  else if value = 0xFA then some (.LoadIndImm16 .Accumulator)
  else if value = 0xFB then some .EnableInterrupts
  else if high ≤ 0x03 then
    if low = 0x01 then (OpcodeRegister16.fromU8 high).map .LoadImm16
    else if low = 0x02 then (OpcodeIndirectRegister16.fromU8 high).map (.LoadIndR16 · .Memory)
    else if low = 0x03 then (OpcodeRegister16.fromU8 high).map .IncR16
    else if low = 0x04 then (OpcodeRegister8.fromU8 (high <<< 1)).map .IncR8
    else if low = 0x05 then (OpcodeRegister8.fromU8 (high <<< 1)).map .DecR8
    else if low = 0x06 then (OpcodeRegister8.fromU8 (high <<< 1)).map .LoadImm8
    else if low = 0x09 then (OpcodeRegister16.fromU8 high).map .AddR16
    else if low = 0x0A then (OpcodeIndirectRegister16.fromU8 high).map (.LoadIndR16 · .Accumulator)
    else if low = 0x0B then (OpcodeRegister16.fromU8 high).map .DecR16
    else if low = 0x0C then (OpcodeRegister8.fromU8 (high <<< 1 ||| 1)).map .IncR8
    else if low = 0x0D then (OpcodeRegister8.fromU8 (high <<< 1 ||| 1)).map .DecR8
    else if low = 0x0E then (OpcodeRegister8.fromU8 (high <<< 1 ||| 1)).map .LoadImm8
    else none
  else if 0x0C ≤ high ∧ high ≤ 0x0F then
    if low = 0x01 then (OpcodeRegister16.fromU8 (high &&& 0x03)).map .PopR16
    else if low = 0x05 then (OpcodeRegister16.fromU8 (high &&& 0x03)).map .PushR16
    else if low = 0x06 then (MathOp.fromU8 ((high &&& 0x03) <<< 1)).map .MathImm8
    else if low = 0x07 then some (.Restart ((high &&& 0x03) <<< 4))
    else if low = 0x0E then (MathOp.fromU8 ((high &&& 0x03) <<< 1 ||| 1)).map .MathImm8
    else if low = 0x0F then some (.Restart ((high &&& 0x03) <<< 4 ||| 0x08))
    else none
  else none

/-- The address space `mem::memory::Mem`: the cartridge image backing the
two ROM windows (`rom_bank` and `rom_switch` are both views of the first
`0x4000` bytes of `cart.data`), and the four RAM-like arrays, modelled as
total functions from array index to stored byte. -/
structure Mem where
  cart : List Nat
  ram : Nat → Nat
  sprite_oam : Nat → Nat
  io_ports : Nat → Nat
  ram_stack : Nat → Nat

/-- `Mem::new`: zeroed RAM regions over a cartridge image. -/
def Mem.new (cart : List Nat) : Mem :=
  { cart := cart
    ram := fun _ => 0
    sprite_oam := fun _ => 0
    io_ports := fun _ => 0
    ram_stack := fun _ => 0 }

/-- `Mem::get_u8` via `Index for Mem`: region dispatch in source arm order.
`panic!` arms (the two unusable ranges) and the unreachable out-of-range
case are `none`; a ROM read out of the bounds of the cartridge image
(undefined behaviour of the raw-slice view in the source) is also `none`. -/
def Mem.get_u8 (m : Mem) (index : Nat) : Option Nat :=
  if 0xFF80 ≤ index ∧ index ≤ 0xFFFF then some (m.ram_stack (index - 0xFF80))
  else if 0xFF4C ≤ index ∧ index ≤ 0xFF7F then none
  else if 0xFF00 ≤ index ∧ index ≤ 0xFF4B then some (m.io_ports (index - 0xFF00))
  else if 0xFEA0 ≤ index ∧ index ≤ 0xFEFF then none
  else if 0xFE00 ≤ index ∧ index ≤ 0xFE9F then some (m.sprite_oam (index - 0xFE00))
  else if 0xE000 ≤ index ∧ index ≤ 0xFDFF then some (m.ram (index - 0xA000))
  else if 0x8000 ≤ index ∧ index ≤ 0xDFFF then some (m.ram (index - 0x8000))
  else if 0x4000 ≤ index ∧ index ≤ 0x7FFF then m.cart.get? (index - 0x4000)
  else if index ≤ 0x3FFF then m.cart.get? index
  else none

/-- `Mem::set_u8` via `IndexMut for Mem`: region dispatch in source arm
order; writes into either ROM window and accesses to the unusable ranges
panic (`none`).  The stored value is reduced mod 256, the `u8` parameter
type of `set_u8`. -/
def Mem.set_u8 (m : Mem) (index v : Nat) : Option Mem :=
  if 0xFF80 ≤ index ∧ index ≤ 0xFFFF then
    some { m with ram_stack := fun j => if j = index - 0xFF80 then v % 256 else m.ram_stack j }
  else if 0xFF4C ≤ index ∧ index ≤ 0xFF7F then none
  else if 0xFF00 ≤ index ∧ index ≤ 0xFF4B then
    some { m with io_ports := fun j => if j = index - 0xFF00 then v % 256 else m.io_ports j }
  else if 0xFEA0 ≤ index ∧ index ≤ 0xFEFF then none
  else if 0xFE00 ≤ index ∧ index ≤ 0xFE9F then
    some { m with sprite_oam := fun j => if j = index - 0xFE00 then v % 256 else m.sprite_oam j }
  else if 0xE000 ≤ index ∧ index ≤ 0xFDFF then
    some { m with ram := fun j => if j = index - 0xA000 then v % 256 else m.ram j }
  else if 0x8000 ≤ index ∧ index ≤ 0xDFFF then
    some { m with ram := fun j => if j = index - 0x8000 then v % 256 else m.ram j }
  else if index ≤ 0x7FFF then none
  else none

/-- `Mem::get_u16`: little-endian, `low | (high << 8)`; the second byte is
read at `index + 1` with `u16` wrap-around. -/
def Mem.get_u16 (m : Mem) (index : Nat) : Option Nat := do
  let low ← m.get_u8 index
  let high ← m.get_u8 ((index + 1) % 65536)
  some (low ||| high <<< 8)

/-- `Mem::set_u16`: stores `value & 0x00FF` at `index` and `value >> 8` at
`index + 1` (with `u16` wrap-around). -/
def Mem.set_u16 (m : Mem) (index value : Nat) : Option Mem := do
  let m ← m.set_u8 index (value &&& 0x00FF)
  m.set_u8 ((index + 1) % 65536) (value >>> 8)

/-- `cpu::proc::Cpu`: the register file, the interrupt master enable flag
and the (unused) cache word. -/
structure Cpu where
  registers : Registers
  ime : Nat
  cache : Nat

/-- `gba::console::Gba` restricted to the state the execution engine
touches (the static boot ROM reference is never used by `execute`). -/
structure Gba where
  cpu : Cpu
  mem : Mem

/-- `Gba::fetch_byte`: read the byte at `pc`, advance `pc`, cost 1. -/
def Gba.fetch_byte (g : Gba) : Option (Gba × Nat × Nat) := do
  let byte ← g.mem.get_u8 g.cpu.registers.pc
  some ({ g with cpu.registers.pc := (g.cpu.registers.pc + 1) % 65536 }, byte, 1)

/-- `Gba::fetch_word`: read the 16-bit word at `pc`, advance `pc` by 2,
cost 2. -/
def Gba.fetch_word (g : Gba) : Option (Gba × Nat × Nat) := do
  let word ← g.mem.get_u16 g.cpu.registers.pc
  some ({ g with cpu.registers.pc := (g.cpu.registers.pc + 2) % 65536 }, word, 2)

/-- `Gba::fetch_register_8`: the value of an 8-bit operand selector, with
the extra cycle charged for the `(HL)` indirection. -/
def Gba.fetch_register_8 (g : Gba) (reg : OpcodeRegister8) : Option (Nat × Nat) :=
  match reg with
  | .HL => (g.mem.get_u8 (g.cpu.registers.get_r16 .HL)).map (fun v => (v, 1))
  | _ => some (g.cpu.registers.get_r8 reg.toRegister8, 0)

/-- `Gba::push`: decrement `sp` by 2, store the 16-bit word at the new
`sp`, cost 2. -/
def Gba.push (g : Gba) (val : Nat) : Option (Gba × Nat) := do
  let sp := u16_sub g.cpu.registers.sp 2
  let g := { g with cpu.registers.sp := sp }
  let m ← g.mem.set_u16 sp val
  some ({ g with mem := m }, 2)

/-- `Gba::jump`: set `pc` when the condition holds; the returned count is
the extra taken cost (1 taken, 0 not taken). -/
def Gba.jump (g : Gba) (addr : Nat) (condition : JumpCondition) : Gba × Nat :=
  match condition with
  | .Always => ({ g with cpu.registers.pc := addr }, 1)
  | .SetFlag fl =>
    if F8.is_set g.cpu.registers.f fl then ({ g with cpu.registers.pc := addr }, 1) else (g, 0)
  | .UnsetFlag fl =>
    if !F8.is_set g.cpu.registers.f fl then ({ g with cpu.registers.pc := addr }, 1) else (g, 0)

/-- `Gba::call`: push the return address and jump when the condition
holds; the returned count is the extra taken cost. -/
def Gba.call (g : Gba) (addr : Nat) (condition : JumpCondition) : Option (Gba × Nat) :=
  match condition with
  | .Always => do
    let (g, cyc) ← g.push g.cpu.registers.pc
    some ({ g with cpu.registers.pc := addr }, cyc + 1)
  | .SetFlag fl =>
    if F8.is_set g.cpu.registers.f fl then do
      let (g, cyc) ← g.push g.cpu.registers.pc
      some ({ g with cpu.registers.pc := addr }, cyc + 1)
    else some (g, 0)
  | .UnsetFlag fl =>
    if !F8.is_set g.cpu.registers.f fl then do
      let (g, cyc) ← g.push g.cpu.registers.pc
      some ({ g with cpu.registers.pc := addr }, cyc + 1)
    else some (g, 0)

/-- `Gba::execute`: interpret one instruction descriptor, returning the
mutated state and the elapsed cycle count.  Every arm is transcribed from
the `match opcode` in `console.rs` in source order; the running `cycles`
accumulator (which starts at 1) is written as an explicit sum.  The final
`panic!` catch-all (reached for `Halt` and `Stop`) is `none`. -/
def Gba.execute (g : Gba) (opcode : Opcode) : Option (Gba × Nat) :=
  match opcode with
  | .LoadR8 dst src => do
    let (g, srcv, cycles) ←
      match src with
      | .HL => do
        let v ← g.mem.get_u8 (g.cpu.registers.get_r16 .HL)
        some (g, v, 1 + 1)
      | _ => some (g, g.cpu.registers.get_r8 src.toRegister8, 1)
    match dst with
    | .HL => do
      let m ← g.mem.set_u8 (g.cpu.registers.get_r16 .HL) srcv
      some ({ g with mem := m }, cycles + 1)
    | _ =>
      some ({ g with cpu.registers := g.cpu.registers.set_r8 dst.toRegister8 srcv }, cycles)
  | .LoadImm8 dst => do
    let (g, val, cyc) ← g.fetch_byte
    match dst with
    | .HL => do
      let m ← g.mem.set_u8 (g.cpu.registers.get_r16 .HL) val
      some ({ g with mem := m }, 1 + 1 + cyc)
    | _ =>
      some ({ g with cpu.registers := g.cpu.registers.set_r8 dst.toRegister8 val }, 1 + cyc)
  | .LoadIndR16 src direction => do
    let (g, addr) :=
      match src with
      | .HLInc =>
        let hl := g.cpu.registers.get_r16 .HL
        ({ g with cpu.registers := g.cpu.registers.set_r16 .HL (u16_add hl 1) }, hl)
      | .HLDec =>
        let hl := g.cpu.registers.get_r16 .HL
        ({ g with cpu.registers := g.cpu.registers.set_r16 .HL (u16_sub hl 1) }, hl)
      | _ => (g, g.cpu.registers.get_r16 src.toRegister16)
    match direction with
    | .Memory => do
      let m ← g.mem.set_u8 addr g.cpu.registers.a
      some ({ g with mem := m }, 1 + 2)
    | .Accumulator => do
      let v ← g.mem.get_u8 addr
      some ({ g with cpu.registers.a := v }, 1 + 2)
  | .LoadIndOffImm8 direction => do
    let (g, off, cyc) ← g.fetch_byte
    let addr := 0xFF00 + off
    match direction with
    | .Memory => do
      let m ← g.mem.set_u8 addr g.cpu.registers.a
      some ({ g with mem := m }, 1 + cyc + 1)
    | .Accumulator => do
      let v ← g.mem.get_u8 addr
      some ({ g with cpu.registers.a := v }, 1 + cyc + 1)
  | .LoadIndOffRegC direction => do
    let addr := 0xFF00 + g.cpu.registers.c
    match direction with
    | .Memory => do
      let m ← g.mem.set_u8 addr g.cpu.registers.a
      some ({ g with mem := m }, 1 + 1)
    | .Accumulator => do
      let v ← g.mem.get_u8 addr
      some ({ g with cpu.registers.a := v }, 1 + 1)
  | .LoadIndImm16 direction => do
    let (g, addr, cyc) ← g.fetch_word
    match direction with
    | .Memory => do
      let m ← g.mem.set_u8 addr g.cpu.registers.a
      some ({ g with mem := m }, 1 + cyc + 1)
    | .Accumulator => do
      let v ← g.mem.get_u8 addr
      some ({ g with cpu.registers.a := v }, 1 + cyc + 1)
  | .LoadImm16 dst => do
    let (g, val, cyc) ← g.fetch_word
    some ({ g with cpu.registers := g.cpu.registers.set_r16 dst.toRegister16 val }, 1 + cyc)
  | .LoadIndImm16SP => do
    let (g, addr, cyc) ← g.fetch_word
    let m ← g.mem.set_u16 addr g.cpu.registers.sp
    some ({ g with mem := m }, 1 + cyc + 2)
  | .LoadSPHL =>
    some ({ g with cpu.registers.sp := g.cpu.registers.get_r16 .HL }, 1 + 1)
  | .PushR16 src => do
    let srcv := g.cpu.registers.get_r16 src.toRegister16
    let (g, cyc) ← g.push srcv
    some (g, 1 + 1 + cyc)
  | .PopR16 dst => do
    let val ← g.mem.get_u16 g.cpu.registers.sp
    let g := { g with cpu.registers.sp := u16_add g.cpu.registers.sp 2 }
    some ({ g with cpu.registers := g.cpu.registers.set_r16 dst.toRegister16 val }, 1 + 2)
  | .LoadHLOffSp => do
    let (g, off, cyc) ← g.fetch_byte
    let sp := g.cpu.registers.sp
    let (addr, over) := u16_overflowing_add sp off
    let _val ← g.mem.get_u16 addr
    let f := g.cpu.registers.f
    let f := f &&& u8_not (Flags.Zero.toU8 ||| Flags.Subtract.toU8)
    let f := if over then f ||| Flags.Carry.toU8 else f &&& Flags.Carry.toU8
    let f := if ((sp &&& 0x000F) + (off &&& 0x0F)) &&& 0x10 ≠ 0
      then f ||| Flags.HalfCarry.toU8 else f &&& u8_not Flags.HalfCarry.toU8
    some ({ g with cpu.registers.f := f }, 1 + cyc + 1)
  | .MathR8 op src => do
    let (srcv, cyc) ← g.fetch_register_8 src
    let a := g.cpu.registers.a
    let f := g.cpu.registers.f
    match op with
    | .Add =>
      let (val, over) := u8_overflowing_add a srcv
      let f := f &&& u8_not Flags.Subtract.toU8
      let f := if over then f ||| Flags.Carry.toU8 else f &&& u8_not Flags.Carry.toU8
      let f := if val = 0 then f ||| Flags.Zero.toU8 else f &&& u8_not Flags.Zero.toU8
      let f := if (a &&& 0x0F) + (srcv &&& 0x0F) = 0x10
        then f ||| Flags.HalfCarry.toU8 else f &&& u8_not Flags.HalfCarry.toU8
      some ({ g with cpu.registers.a := val, cpu.registers.f := f }, 1 + cyc)
    | .Adc =>
      let (val, over) := u8_overflowing_add a (u8_add srcv (F8.is_set f .Carry).toNat)
      let f := f &&& u8_not Flags.Subtract.toU8
      let f := if over then f ||| Flags.Carry.toU8 else f &&& u8_not Flags.Carry.toU8
      let f := if val = 0 then f ||| Flags.Zero.toU8 else f &&& u8_not Flags.Zero.toU8
      let f := if (a &&& 0x0F) + (srcv &&& 0x0F) = 0x10
        then f ||| Flags.HalfCarry.toU8 else f &&& u8_not Flags.HalfCarry.toU8
      some ({ g with cpu.registers.a := val, cpu.registers.f := f }, 1 + cyc)
    | .Sub =>
      let (val, over) := u8_overflowing_sub a srcv
      let f := f ||| Flags.Subtract.toU8
      let f := if over then f ||| Flags.Carry.toU8 else f &&& u8_not Flags.Carry.toU8
      let f := if val = 0 then f ||| Flags.Zero.toU8 else f &&& u8_not Flags.Zero.toU8
      let f := if u8_sub (a &&& 0x0F) (srcv &&& 0x0F) = 0x10
        then f ||| Flags.HalfCarry.toU8 else f &&& u8_not Flags.HalfCarry.toU8
      some ({ g with cpu.registers.a := val, cpu.registers.f := f }, 1 + cyc)
    | .Sbc =>
      let (val, over) := u8_overflowing_sub a (u8_sub srcv (F8.is_set f .Carry).toNat)
      let f := f ||| Flags.Subtract.toU8
      let f := if over then f ||| Flags.Carry.toU8 else f &&& u8_not Flags.Carry.toU8
      let f := if val = 0 then f ||| Flags.Zero.toU8 else f &&& u8_not Flags.Zero.toU8
      let f := if u8_sub (a &&& 0x0F) (srcv &&& 0x0F) = 0x10
        then f ||| Flags.HalfCarry.toU8 else f &&& u8_not Flags.HalfCarry.toU8
      some ({ g with cpu.registers.a := val, cpu.registers.f := f }, 1 + cyc)
    | .And =>
      let a := a &&& srcv
      let f := f &&& u8_not (Flags.Subtract.toU8 ||| Flags.Carry.toU8)
      let f := f ||| Flags.HalfCarry.toU8
      let f := if a = 0 then f ||| Flags.Zero.toU8 else f &&& u8_not Flags.Zero.toU8
      some ({ g with cpu.registers.a := a, cpu.registers.f := f }, 1 + cyc)
    | .Xor =>
      let a := a ^^^ srcv
      let f := f &&& u8_not (Flags.Subtract.toU8 ||| Flags.Carry.toU8 ||| Flags.HalfCarry.toU8)
      let f := if a = 0 then f ||| Flags.Zero.toU8 else f &&& u8_not Flags.Zero.toU8
      some ({ g with cpu.registers.a := a, cpu.registers.f := f }, 1 + cyc)
    | .Or =>
      let a := a ||| srcv
      let f := f &&& u8_not (Flags.Subtract.toU8 ||| Flags.Carry.toU8 ||| Flags.HalfCarry.toU8)
      let f := if a = 0 then f ||| Flags.Zero.toU8 else f &&& u8_not Flags.Zero.toU8
      some ({ g with cpu.registers.a := a, cpu.registers.f := f }, 1 + cyc)
    | .Cp =>
      let (val, over) := u8_overflowing_sub a srcv
      let f := f ||| Flags.Subtract.toU8
      let f := if over then f ||| Flags.Carry.toU8 else f &&& u8_not Flags.Carry.toU8
      let f := if val = 0 then f ||| Flags.Zero.toU8 else f &&& u8_not Flags.Zero.toU8
      let f := if u8_sub (a &&& 0x0F) (srcv &&& 0x0F) = 0x10
        then f ||| Flags.HalfCarry.toU8 else f &&& u8_not Flags.HalfCarry.toU8
      some ({ g with cpu.registers.f := f }, 1 + cyc)
  | .MathImm8 op => do
    let (g, srcv, cyc) ← g.fetch_byte
    let a := g.cpu.registers.a
    let f := g.cpu.registers.f
    match op with
    | .Add =>
      let (val, over) := u8_overflowing_add a srcv
      let f := f &&& u8_not Flags.Subtract.toU8
      let f := if over then f ||| Flags.Carry.toU8 else f &&& u8_not Flags.Carry.toU8
      let f := if val = 0 then f ||| Flags.Zero.toU8 else f &&& u8_not Flags.Zero.toU8
      let f := if (a &&& 0x0F) + (srcv &&& 0x0F) = 0x10
        then f ||| Flags.HalfCarry.toU8 else f &&& u8_not Flags.HalfCarry.toU8
      some ({ g with cpu.registers.a := val, cpu.registers.f := f }, 1 + cyc)
    | .Adc =>
      let (val, over) := u8_overflowing_add a (u8_add srcv (F8.is_set f .Carry).toNat)
      let f := f &&& u8_not Flags.Subtract.toU8
      let f := if val = 0 then f ||| Flags.Zero.toU8 else f &&& u8_not Flags.Zero.toU8
      let f := if (a &&& 0x0F) + (srcv &&& 0x0F) + (F8.is_set f .Carry).toNat = 0x10
        then f ||| Flags.HalfCarry.toU8 else f &&& u8_not Flags.HalfCarry.toU8
      let f := if over then f ||| Flags.Carry.toU8 else f &&& u8_not Flags.Carry.toU8
      some ({ g with cpu.registers.a := val, cpu.registers.f := f }, 1 + cyc)
    | .Sub =>
      let (val, over) := u8_overflowing_sub a srcv
      let f := f ||| Flags.Subtract.toU8
      let f := if over then f ||| Flags.Carry.toU8 else f &&& u8_not Flags.Carry.toU8
      let f := if val = 0 then f ||| Flags.Zero.toU8 else f &&& u8_not Flags.Zero.toU8
      let f := if u8_sub (a &&& 0x0F) (srcv &&& 0x0F) = 0x10
        then f ||| Flags.HalfCarry.toU8 else f &&& u8_not Flags.HalfCarry.toU8
      some ({ g with cpu.registers.a := val, cpu.registers.f := f }, 1 + cyc)
    | .Sbc =>
      let (val, over) := u8_overflowing_sub a (u8_sub srcv (F8.is_set f .Carry).toNat)
      let f := f ||| Flags.Subtract.toU8
      let f := if over then f ||| Flags.Carry.toU8 else f &&& u8_not Flags.Carry.toU8
      let f := if val = 0 then f ||| Flags.Zero.toU8 else f &&& u8_not Flags.Zero.toU8
      let f := if u8_sub (u8_sub (a &&& 0x0F) (srcv &&& 0x0F)) (F8.is_set f .Carry).toNat = 0x10
        then f ||| Flags.HalfCarry.toU8 else f &&& u8_not Flags.HalfCarry.toU8
      some ({ g with cpu.registers.a := val, cpu.registers.f := f }, 1 + cyc)
    | .Cp =>
      let (val, over) := u8_overflowing_sub a srcv
      let f := f ||| Flags.Subtract.toU8
      let f := if over then f ||| Flags.Carry.toU8 else f &&& u8_not Flags.Carry.toU8
      let f := if val = 0 then f ||| Flags.Zero.toU8 else f &&& u8_not Flags.Zero.toU8
      let f := if u8_sub (a &&& 0x0F) (srcv &&& 0x0F) = 0x10
        then f ||| Flags.HalfCarry.toU8 else f &&& u8_not Flags.HalfCarry.toU8
      some ({ g with cpu.registers.f := f }, 1 + cyc)
    | .And =>
      let a := a &&& srcv
      let f := f &&& u8_not (Flags.Subtract.toU8 ||| Flags.Carry.toU8)
      let f := f ||| Flags.HalfCarry.toU8
      let f := if a = 0 then f ||| Flags.Zero.toU8 else f &&& u8_not Flags.Zero.toU8
      some ({ g with cpu.registers.a := a, cpu.registers.f := f }, 1 + cyc)
    | .Or =>
      let a := a ||| srcv
      let f := f &&& u8_not (Flags.Subtract.toU8 ||| Flags.Carry.toU8 ||| Flags.HalfCarry.toU8)
      let f := if a = 0 then f ||| Flags.Zero.toU8 else f &&& u8_not Flags.Zero.toU8
      some ({ g with cpu.registers.a := a, cpu.registers.f := f }, 1 + cyc)
    | .Xor =>
      let a := a ^^^ srcv
      let f := f &&& u8_not (Flags.Subtract.toU8 ||| Flags.Carry.toU8 ||| Flags.HalfCarry.toU8)
      let f := if a = 0 then f ||| Flags.Zero.toU8 else f &&& u8_not Flags.Zero.toU8
      some ({ g with cpu.registers.a := a, cpu.registers.f := f }, 1 + cyc)
  | .IncR8 reg => do
    let (g, val, cycles) ←
      match reg with
      | .HL => do
        let addr := g.cpu.registers.get_r16 .HL
        let v ← g.mem.get_u8 addr
        let m ← g.mem.set_u8 addr (u8_add v 1)
        some ({ g with mem := m }, v, 1 + 2)
      | _ =>
        let r := reg.toRegister8
        let v := g.cpu.registers.get_r8 r
        some ({ g with cpu.registers := g.cpu.registers.set_r8 r (u8_add v 1) }, v, 1)
    let f := g.cpu.registers.f &&& u8_not Flags.Subtract.toU8
    let f := if val = 0 then f ||| Flags.Zero.toU8 else f &&& u8_not Flags.Zero.toU8
    let f := if val &&& 0x08 ≠ 0 then f ||| Flags.HalfCarry.toU8 else f &&& u8_not Flags.HalfCarry.toU8
    some ({ g with cpu.registers.f := f }, cycles)
  | .DecR8 reg => do
    let (g, val, cycles) ←
      match reg with
      | .HL => do
        let addr := g.cpu.registers.get_r16 .HL
        let v ← g.mem.get_u8 addr
        let m ← g.mem.set_u8 addr (u8_add v 1)
        some ({ g with mem := m }, v, 1 + 2)
      | _ =>
        let r := reg.toRegister8
        let v := g.cpu.registers.get_r8 r
        some ({ g with cpu.registers := g.cpu.registers.set_r8 r (u8_add v 1) }, v, 1)
    let f := g.cpu.registers.f &&& u8_not Flags.Subtract.toU8
    let f := if val = 0 then f ||| Flags.Zero.toU8 else f &&& u8_not Flags.Zero.toU8
    let f := if u8_sub (val &&& 0x0F) 1 ≠ 0 then f ||| Flags.HalfCarry.toU8 else f &&& u8_not Flags.HalfCarry.toU8
    some ({ g with cpu.registers.f := f }, cycles)
  | .ComplementCarryFlag =>
    let f := g.cpu.registers.f ^^^ Flags.Carry.toU8
    let f := f &&& u8_not (Flags.Subtract.toU8 ||| Flags.HalfCarry.toU8)
    some ({ g with cpu.registers.f := f }, 1)
  | .SetCarryFlag =>
    let f := g.cpu.registers.f ||| Flags.Carry.toU8
    let f := f &&& u8_not (Flags.Subtract.toU8 ||| Flags.HalfCarry.toU8)
    some ({ g with cpu.registers.f := f }, 1)
  | .DecimalAdjustAccumulator =>
    let a := g.cpu.registers.a
    let f := g.cpu.registers.f
    let (a, f) :=
      if F8.is_set f .Subtract then
        let (a, f) :=
          if F8.is_set f .Carry || decide (0x99 < a)
          then (u8_add a 0x60, f ||| Flags.Carry.toU8) else (a, f)
        let a :=
          if F8.is_set f .HalfCarry || decide (0x09 < a &&& 0x0F)
          then u8_add a 0x06 else a
        (a, f)
      else
        let a := if F8.is_set f .Carry then u8_sub a 0x60 else a
        let a := if F8.is_set f .HalfCarry then u8_sub a 0x06 else a
        (a, f)
    let f := if a = 0 then f ||| Flags.Zero.toU8 else f &&& u8_not Flags.Zero.toU8
    let f := f &&& u8_not Flags.HalfCarry.toU8
    some ({ g with cpu.registers.a := a, cpu.registers.f := f }, 1)
  | .ComplementAccumulator =>
    let a := g.cpu.registers.a ^^^ 0xFF
    let f := g.cpu.registers.f ||| (Flags.Subtract.toU8 ||| Flags.HalfCarry.toU8)
    some ({ g with cpu.registers.a := a, cpu.registers.f := f }, 1)
  | .IncR16 src =>
    let p := src.toRegister16
    let w := g.cpu.registers.get_r16 p
    some ({ g with cpu.registers := g.cpu.registers.set_r16 p (u16_add w 1) }, 1 + 1)
  | .DecR16 src =>
    let p := src.toRegister16
    let w := g.cpu.registers.get_r16 p
    some ({ g with cpu.registers := g.cpu.registers.set_r16 p (u16_sub w 1) }, 1 + 1)
  | .AddR16 src =>
    let hl := g.cpu.registers.get_r16 .HL
    let srcv := g.cpu.registers.get_r16 src.toRegister16
    let (val, over) := u16_overflowing_add hl srcv
    let g := { g with cpu.registers := g.cpu.registers.set_r16 .HL val }
    let f := g.cpu.registers.f &&& u8_not Flags.Subtract.toU8
    let f := if over then f ||| Flags.Carry.toU8 else f &&& u8_not Flags.Carry.toU8
    let f := if ((hl &&& 0x0F00) + (srcv &&& 0x0F00)) &&& 0x1000 ≠ 0
      then f ||| Flags.HalfCarry.toU8 else f &&& u8_not Flags.HalfCarry.toU8
    some ({ g with cpu.registers.f := f }, 1 + 1)
  | .AddSPImm8 => do
    let (g, off, _cyc) ← g.fetch_byte
    let sp := g.cpu.registers.sp
    let (sp, over) :=
      if off < 0x80 then u16_overflowing_add sp off
      else u16_overflowing_sub sp (if off = 0x80 then 0xFF80 else 256 - off)
    let g := { g with cpu.registers.sp := sp }
    let f := g.cpu.registers.f &&& u8_not (Flags.Zero.toU8 ||| Flags.Subtract.toU8)
    let f := if over then f ||| Flags.Zero.toU8 else f &&& u8_not Flags.Zero.toU8
    let f := if (sp &&& 0x000F) + (off &&& 0x000F) = 0x0010
      then f ||| Flags.HalfCarry.toU8 else f &&& u8_not Flags.HalfCarry.toU8
    some ({ g with cpu.registers.f := f }, 1)
  | .RotateLeftCircularAccumulator =>
    let (a, c) := u8_overflowing_shl g.cpu.registers.a 1
    let f := if c then Flags.Carry.toU8 else 0
    some ({ g with cpu.registers.a := a ||| c.toNat, cpu.registers.f := f }, 1)
  | .RotateLeftAccumulator =>
    let (a, c) := u8_overflowing_shl g.cpu.registers.a 1
    let old_c := (F8.is_set g.cpu.registers.f .Carry).toNat
    let f := if c then Flags.Carry.toU8 else 0
    some ({ g with cpu.registers.a := a ||| old_c, cpu.registers.f := f }, 1)
  | .RotateRightCircularAccumulator =>
    let (a, c) := u8_overflowing_shr g.cpu.registers.a 1
    let f := if c then Flags.Carry.toU8 else 0
    some ({ g with cpu.registers.a := a ||| c.toNat <<< 7, cpu.registers.f := f }, 1)
  | .RotateRightAccumulator =>
    let (a, c) := u8_overflowing_shr g.cpu.registers.a 1
    let old_c := (F8.is_set g.cpu.registers.f .Carry).toNat
    let f := if c then Flags.Carry.toU8 else 0
    some ({ g with cpu.registers.a := a ||| old_c <<< 7, cpu.registers.f := f }, 1)
  | .JumpImm16 condition => do
    let (g, addr, cyc) ← g.fetch_word
    let (g, jc) := g.jump addr condition
    some (g, 1 + cyc + jc)
  | .JumpHL =>
    some ({ g with cpu.registers.pc := g.cpu.registers.get_r16 .HL }, 1)
  | .JumpOffImm8 condition => do
    let (g, off, cyc) ← g.fetch_byte
    let addr := u16_add g.cpu.registers.pc (if off < 0x80 then off else 0xFF00 + off)
    let (g, jc) := g.jump addr condition
    some (g, 1 + cyc + jc)
  | .CallImm16 condition => do
    let (g, addr, cyc) ← g.fetch_word
    let (g, cc) ← g.call addr condition
    some (g, 1 + cyc + cc)
  | .Return condition =>
    match condition with
    | .Always => do
      let v ← g.mem.get_u16 g.cpu.registers.sp
      some ({ g with cpu.registers.pc := v,
                     cpu.registers.sp := u16_add g.cpu.registers.sp 2 }, 1 + 4)
    | .SetFlag fl =>
      if F8.is_set g.cpu.registers.f fl then do
        let v ← g.mem.get_u16 g.cpu.registers.sp
        some ({ g with cpu.registers.pc := v,
                       cpu.registers.sp := u16_add g.cpu.registers.sp 2 }, 1 + 4)
      else some (g, 1 + 1)
    | .UnsetFlag fl =>
      if !F8.is_set g.cpu.registers.f fl then do
        let v ← g.mem.get_u16 g.cpu.registers.sp
        some ({ g with cpu.registers.pc := v,
                       cpu.registers.sp := u16_add g.cpu.registers.sp 2 }, 1 + 4)
      else some (g, 1 + 1)
  | .ReturnInterupt => do
    let v ← g.mem.get_u16 g.cpu.registers.pc
    some ({ g with cpu.registers.pc := v,
                   cpu.registers.sp := u16_add g.cpu.registers.sp 2,
                   cpu.ime := 1 }, 1 + 3)
  | .Restart vector => do
    let (g, cyc) ← g.push g.cpu.registers.pc
    some ({ g with cpu.registers.pc := vector % 65536 }, 1 + 1 + cyc)
  | .DisableInterrupts => some ({ g with cpu.ime := 0 }, 1)
  | .EnableInterrupts => some ({ g with cpu.ime := 1 }, 1)
  | .Noop => some (g, 1)
  | .Halt => none
  | .Stop => none

/-- Power-on state: `Cpu::default()` (all registers, `ime` and `cache`
zeroed) over `Mem::new` of a cartridge image, as built by `Gba::new`. -/
def Gba.power_on (cart : List Nat) : Gba :=
  { cpu := { registers := ⟨0, 0, 0, 0, 0, 0, 0, 0, 0, 0⟩, ime := 0, cache := 0 }
    mem := Mem.new cart }

/-! Specification-side definitions.  These follow the words of the spec
(not the code) and are used to compare decoder and cycle behaviour against
the spec's formulas. -/

/-- Spec-side 8-value register enumeration map of section 4.4:
`{B, C, D, E, H, L, (HL), A}` indexed by a 3-bit field. -/
def specReg8 (n : Nat) : OpcodeRegister8 :=
  match n % 8 with
  | 0 => .B
  | 1 => .C
  | 2 => .D
  | 3 => .E
  | 4 => .H
  | 5 => .L
  | 6 => .HL
  | _ => .A

/-- Spec-side ALU operation map of section 4.4: `Add/Adc/Sub/Sbc/And/Xor/
Or/Cp` in that order, indexed by a 3-bit field. -/
def specMathOp (n : Nat) : MathOp :=
  match n % 8 with
  | 0 => .Add
  | 1 => .Adc
  | 2 => .Sub
  | 3 => .Sbc
  | 4 => .And
  | 5 => .Xor
  | 6 => .Or
  | _ => .Cp

/-- The writable (read-write) address ranges of the region dispatch table:
general/video RAM with its echo, the sprite attribute table, the I/O ports
and high RAM. -/
def Mem.writable (a : Nat) : Prop :=
  (0x8000 ≤ a ∧ a ≤ 0xFDFF) ∨ (0xFE00 ≤ a ∧ a ≤ 0xFE9F) ∨
  (0xFF00 ≤ a ∧ a ≤ 0xFF4B) ∨ (0xFF80 ≤ a ∧ a ≤ 0xFFFF)

instance (a : Nat) : Decidable (Mem.writable a) := by
  unfold Mem.writable; infer_instance

/-- The two unusable address ranges of the region dispatch table. -/
def Mem.unusable (a : Nat) : Prop :=
  (0xFEA0 ≤ a ∧ a ≤ 0xFEFF) ∨ (0xFF4C ≤ a ∧ a ≤ 0xFF7F)

instance (a : Nat) : Decidable (Mem.unusable a) := by
  unfold Mem.unusable; infer_instance

/-! Claim C1. -/

/-- C1 counterexample: writing `B = 0x12` then `C = 0x34` and reading the
pair `BC` yields `0x3412`, not the `0x1234` the claim states — under the
raw 16-bit overlay the first-named register is the LOW byte of the pair. -/
theorem c1_bc_is_low_byte_first :
    (((⟨0, 0, 0, 0, 0, 0, 0, 0, 0, 0⟩ : Registers).set_r8 .B 0x12).set_r8 .C 0x34).get_r16 .BC
      = 0x3412 ∧ (0x3412 : Nat) ≠ 0x1234 := by
  constructor
  · rfl
  · decide

/-- C1 (amended): every 16-bit pair write/read round-trips exactly, and
writing the two 8-bit halves composes with the FIRST-named register as the
low byte: after `write8(B, x)` and `write8(C, y)`, `read16(BC)` returns
`x + 256 * y` (so `B = 0x12`, `C = 0x34` reads back `0x3412`), and likewise
for `DE`, `HL`, `AF`. -/
theorem c1_pair_roundtrip_low_first :
    (∀ (r : Registers) (p : Register16) (w : Nat), w < 65536 →
      (r.set_r16 p w).get_r16 p = w)
    ∧ (∀ (r : Registers) (x y : Nat), x < 256 → y < 256 →
      ((r.set_r8 .B x).set_r8 .C y).get_r16 .BC = x + 256 * y
      ∧ ((r.set_r8 .D x).set_r8 .E y).get_r16 .DE = x + 256 * y
      ∧ ((r.set_r8 .H x).set_r8 .L y).get_r16 .HL = x + 256 * y
      ∧ ((r.set_r8 .A x).set_r8 .F y).get_r16 .AF = x + 256 * y) := by
  constructor
  · intro r p w hw
    cases p <;> simp [Registers.set_r16, Registers.get_r16] <;> omega
  · intro r x y hx hy
    refine ⟨?_, ?_, ?_, ?_⟩ <;> simp [Registers.set_r8, Registers.get_r16] <;> omega

/-- C1 witness: the amended statement evaluated at concrete inputs. -/
theorem c1_pair_roundtrip_low_first_witness :
    ((⟨1, 2, 3, 4, 5, 6, 7, 8, 9, 10⟩ : Registers).set_r16 .DE 0xBEEF).get_r16 .DE = 0xBEEF
    ∧ (((⟨0, 0, 0, 0, 0, 0, 0, 0, 0, 0⟩ : Registers).set_r8 .B 0x12).set_r8 .C 0x34).get_r16 .BC
      = 0x12 + 256 * 0x34 :=
  ⟨c1_pair_roundtrip_low_first.1 ⟨1, 2, 3, 4, 5, 6, 7, 8, 9, 10⟩ .DE 0xBEEF (by decide),
   (c1_pair_roundtrip_low_first.2 ⟨0, 0, 0, 0, 0, 0, 0, 0, 0, 0⟩ 0x12 0x34 (by decide)
      (by decide)).1⟩

/-! Claim C8. -/

set_option maxRecDepth 16384 in
/-- C8: every byte in `0x40–0x7F` decodes to a register-to-register load
with destination bits 5–3 and source bits 2–0 through the 8-value
enumeration, and every byte in `0x80–0xBF` decodes to an ALU descriptor
with operation bits 5–3 (`Add/Adc/Sub/Sbc/And/Xor/Or/Cp` in order) and
operand bits 2–0 through the same enumeration. -/
theorem c8_dense_block_decode :
    ∀ b : Nat, b ≤ 0xBF →
      (0x40 ≤ b → b ≤ 0x7F →
        Opcode.fromU8 b = some (.LoadR8 (specReg8 (b / 8)) (specReg8 b)))
      ∧ (0x80 ≤ b →
        Opcode.fromU8 b = some (.MathR8 (specMathOp (b / 8)) (specReg8 b))) := by
  decide

/-- C8 witness: the decode equations evaluated at `0x53` (`LD D, E`) and
`0x9E` (`SBC (HL)`). -/
theorem c8_dense_block_decode_witness :
    Opcode.fromU8 0x53 = some (.LoadR8 (specReg8 (0x53 / 8)) (specReg8 0x53))
    ∧ Opcode.fromU8 0x9E = some (.MathR8 (specMathOp (0x9E / 8)) (specReg8 0x9E)) :=
  ⟨(c8_dense_block_decode 0x53 (by decide)).1 (by decide) (by decide),
   (c8_dense_block_decode 0x9E (by decide)).2 (by decide)⟩

/-! Claim C5. -/

/-- C5: for every address `A` whose mirror `A + 0x2000` lies in
`0xE000–0xFDFF`, a byte written at `A` is read back at `A + 0x2000` and a
byte written at `A + 0x2000` is read back at `A` — both map to the same
`ram` cell. -/
theorem c5_echo_ram_mirroring :
    ∀ (m : Mem) (A b : Nat), b < 256 →
      0xE000 ≤ A + 0x2000 → A + 0x2000 ≤ 0xFDFF →
      (∃ m', m.set_u8 A b = some m' ∧ m'.get_u8 (A + 0x2000) = some b)
      ∧ (∃ m', m.set_u8 (A + 0x2000) b = some m' ∧ m'.get_u8 A = some b) := by
  intro m A b hb h1 h2
  constructor
  · refine ⟨{ m with ram := fun j => if j = A - 0x8000 then b % 256 else m.ram j }, ?_, ?_⟩
    · unfold Mem.set_u8
      rw [if_neg (by omega), if_neg (by omega), if_neg (by omega)]
      rw [if_neg (by omega), if_neg (by omega), if_neg (by omega), if_pos (by omega)]
    · unfold Mem.get_u8
      rw [if_neg (by omega), if_neg (by omega), if_neg (by omega)]
      rw [if_neg (by omega), if_neg (by omega), if_pos (by omega)]
      simp only [Option.some.injEq]
      have hidx : A + 0x2000 - 0xA000 = A - 0x8000 := by omega
      rw [hidx, if_pos rfl]
      omega
  · refine ⟨{ m with ram := fun j => if j = A + 0x2000 - 0xA000 then b % 256 else m.ram j },
      ?_, ?_⟩
    · unfold Mem.set_u8
      rw [if_neg (by omega), if_neg (by omega), if_neg (by omega)]
      rw [if_neg (by omega), if_neg (by omega), if_pos (by omega)]
    · unfold Mem.get_u8
      rw [if_neg (by omega), if_neg (by omega), if_neg (by omega)]
      rw [if_neg (by omega), if_neg (by omega), if_neg (by omega), if_pos (by omega)]
      simp only [Option.some.injEq]
      have hidx : A - 0x8000 = A + 0x2000 - 0xA000 := by omega
      rw [hidx, if_pos rfl]
      omega

/-- C5 witness: the mirroring statement evaluated at `A = 0xC123`,
`b = 0xAB`. -/
theorem c5_echo_ram_mirroring_witness :
    (∃ m', (Mem.new []).set_u8 0xC123 0xAB = some m' ∧ m'.get_u8 0xE123 = some 0xAB)
    ∧ (∃ m', (Mem.new []).set_u8 0xE123 0xAB = some m' ∧ m'.get_u8 0xC123 = some 0xAB) :=
  c5_echo_ram_mirroring (Mem.new []) 0xC123 0xAB (by decide) (by decide) (by decide)

/-! Claim C7. -/

set_option maxHeartbeats 1000000 in
/-- C7: writes into `0x0000–0x7FFF` fail fatally; both reads and writes in
the unusable ranges `0xFEA0–0xFEFF` and `0xFF4C–0xFF7F` fail fatally; every
other 16-bit address reads successfully (given a cartridge image of at
least `0x4000` bytes), and every other writable-side address (`≥ 0x8000`)
writes successfully. -/
theorem c7_memory_error_policy :
    (∀ (m : Mem) (a v : Nat), a ≤ 0x7FFF → m.set_u8 a v = none)
    ∧ (∀ (m : Mem) (a : Nat), Mem.unusable a →
        m.get_u8 a = none ∧ ∀ v, m.set_u8 a v = none)
    ∧ (∀ (m : Mem) (a : Nat), a < 65536 → ¬ Mem.unusable a →
        0x4000 ≤ m.cart.length → (m.get_u8 a).isSome = true)
    ∧ (∀ (m : Mem) (a v : Nat), a < 65536 → 0x8000 ≤ a → ¬ Mem.unusable a →
        (m.set_u8 a v).isSome = true) := by
  refine ⟨?_, ?_, ?_, ?_⟩
  · intro m a v ha
    unfold Mem.set_u8
    rw [if_neg (by omega), if_neg (by omega), if_neg (by omega), if_neg (by omega)]
    rw [if_neg (by omega), if_neg (by omega), if_neg (by omega), if_pos (by omega)]
  · intro m a ha
    unfold Mem.unusable at ha
    constructor
    · unfold Mem.get_u8
      rcases ha with h | h
      · rw [if_neg (by omega), if_neg (by omega), if_neg (by omega), if_pos (by omega)]
      · rw [if_neg (by omega), if_pos (by omega)]
    · intro v
      unfold Mem.set_u8
      rcases ha with h | h
      · rw [if_neg (by omega), if_neg (by omega), if_neg (by omega), if_pos (by omega)]
      · rw [if_neg (by omega), if_pos (by omega)]
  · intro m a ha hn hc
    unfold Mem.unusable at hn
    unfold Mem.get_u8
    split_ifs with h1 h2 h3 h4 h5 h6 h7 h8 h9 <;> try rfl
    all_goals try omega
    · have : a - 0x4000 < m.cart.length := by omega
      cases hg : m.cart.get? (a - 0x4000) with
      | none => rw [List.get?_eq_none] at hg; omega
      | some x => rfl
    · have : a < m.cart.length := by omega
      cases hg : m.cart.get? a with
      | none => rw [List.get?_eq_none] at hg; omega
      | some x => rfl
  · intro m a v ha h8 hn
    unfold Mem.unusable at hn
    unfold Mem.set_u8
    split_ifs <;> first | rfl | omega

/-- C7 witness: the policy evaluated at concrete addresses — a ROM write
at `0x1234`, accesses at `0xFEA5`, a ROM-range read at `0x7FFF` against a
full-sized cartridge, and a RAM write at `0xC000`. -/
theorem c7_memory_error_policy_witness :
    (Mem.new []).set_u8 0x1234 5 = none
    ∧ ((Mem.new []).get_u8 0xFEA5 = none ∧ ∀ v, (Mem.new []).set_u8 0xFEA5 v = none)
    ∧ ((Mem.new (List.replicate 0x4000 0)).get_u8 0x7FFF).isSome = true
    ∧ ((Mem.new []).set_u8 0xC000 7).isSome = true :=
  ⟨c7_memory_error_policy.1 (Mem.new []) 0x1234 5 (by decide),
   c7_memory_error_policy.2.1 (Mem.new []) 0xFEA5 (by decide),
   c7_memory_error_policy.2.2.1 (Mem.new (List.replicate 0x4000 0)) 0x7FFF (by decide)
     (by decide) (by rw [Mem.new, List.length_replicate]),
   c7_memory_error_policy.2.2.2 (Mem.new []) 0xC000 7 (by decide) (by decide) (by decide)⟩

/-! Claim C2. -/

/-- The failing state for C2: accumulator `A = 0x0F`, operand register
`B = 0x0F`, all flags clear. -/
def c2Gba : Gba :=
  { cpu := { registers := ⟨0x0F, 0, 0, 0, 0, 0, 0x0F, 0, 0, 0⟩, ime := 0, cache := 0 }
    mem := Mem.new [] }

/-- C2: evaluation at the failing input.  `ADD A, B` with `A = B = 0x0F`
produces `0x1E` with a carry out of bit 3 (`0x0F + 0x0F ≥ 0x10`), yet the
engine leaves Half-Carry CLEAR, because its low-nibble test compares the
nibble sum for equality with `0x10` (`== 0x10`) instead of testing the
carry out of bit 3.  This contradicts the claim's "Half-Carry is set iff a
carry/borrow occurred between bit 3 and bit 4". -/
theorem c2_halfcarry_failing_input :
    (c2Gba.execute (.MathR8 .Add .B)).map
        (fun p => (p.1.cpu.registers.a, F8.is_set p.1.cpu.registers.f .HalfCarry,
          F8.is_set p.1.cpu.registers.f .Zero, F8.is_set p.1.cpu.registers.f .Subtract,
          F8.is_set p.1.cpu.registers.f .Carry, p.2))
      = some (0x1E, false, false, false, false, 1)
    ∧ 16 ≤ 0x0F % 16 + 0x0F % 16 := by
  exact ⟨rfl, by decide⟩

/-! Claim C3. -/

/-- C3: evaluation at the failing input.  From the power-on (zeroed) state
over a cartridge whose first two bytes are `0x00, 0x01`, executing `POP AF`
(stack pointer 0, so the popped word is `0x0100` read from ROM) writes the
word into the `AF` pair unmasked: `F` becomes `0x01`, whose low nibble is
`1 ≠ 0`.  So the claimed invariant is broken by a single instruction
reachable from power-on. -/
theorem c3_pop_af_failing_input :
    ((Gba.power_on [0x00, 0x01]).execute (.PopR16 .AF)).map
        (fun p => (p.1.cpu.registers.f, p.1.cpu.registers.f % 16, p.1.cpu.registers.a,
          p.1.cpu.registers.sp, p.2))
      = some (0x01, 1, 0, 2, 3)
    ∧ (1 : Nat) ≠ 0 := by
  exact ⟨rfl, by decide⟩

/-! Helper lemmas about the memory dispatch and about flag bytes. -/

/-- A bitwise-or of naturals is zero exactly when both sides are. -/
theorem lor_eq_zero_iff (x y : Nat) : x ||| y = 0 ↔ x = 0 ∧ y = 0 := by
  constructor
  · intro h
    have hbit : ∀ i, x.testBit i = false ∧ y.testBit i = false := by
      intro i
      have h2 := congrArg (fun n => n.testBit i) h
      simpa [Nat.testBit_lor] using h2
    exact ⟨Nat.eq_of_testBit_eq fun i => by simp [(hbit i).1],
      Nat.eq_of_testBit_eq fun i => by simp [(hbit i).2]⟩
  · rintro ⟨rfl, rfl⟩; rfl

/-- Writing a writable address always succeeds. -/
theorem Mem.set_u8_writable (m : Mem) (a v : Nat) (h : Mem.writable a) :
    ∃ m', m.set_u8 a v = some m' := by
  unfold Mem.writable at h
  unfold Mem.set_u8
  split_ifs <;> first | exact ⟨_, rfl⟩ | omega

/-- Reading back the address just written returns the written byte. -/
theorem Mem.get_u8_set_u8_same (m m' : Mem) (a v : Nat) (h : m.set_u8 a v = some m') :
    m'.get_u8 a = some (v % 256) := by
  unfold Mem.set_u8 at h
  split_ifs at h with h1 h2 h3 h4 h5 h6 h7 h8
  · cases h
    unfold Mem.get_u8
    rw [if_pos h1]
    simp
  · cases h
    unfold Mem.get_u8
    rw [if_neg h1, if_neg h2, if_pos h3]
    simp
  · cases h
    unfold Mem.get_u8
    rw [if_neg h1, if_neg h2, if_neg h3, if_neg h4, if_pos h5]
    simp
  · cases h
    unfold Mem.get_u8
    rw [if_neg h1, if_neg h2, if_neg h3, if_neg h4, if_neg h5, if_pos h6]
    simp
  · cases h
    unfold Mem.get_u8
    rw [if_neg h1, if_neg h2, if_neg h3, if_neg h4, if_neg h5, if_neg h6, if_pos h7]
    simp

/-- Congruence for `get_u8`: the read at `b` only depends on the cartridge
and on the region cell that `b` dispatches to. -/
theorem Mem.get_u8_eq_of (m2 m : Mem) (b : Nat)
    (hc : m2.cart = m.cart)
    (hrs : 0xFF80 ≤ b → b ≤ 0xFFFF → m2.ram_stack (b - 0xFF80) = m.ram_stack (b - 0xFF80))
    (hio : 0xFF00 ≤ b → b ≤ 0xFF4B → m2.io_ports (b - 0xFF00) = m.io_ports (b - 0xFF00))
    (hoam : 0xFE00 ≤ b → b ≤ 0xFE9F → m2.sprite_oam (b - 0xFE00) = m.sprite_oam (b - 0xFE00))
    (he : 0xE000 ≤ b → b ≤ 0xFDFF → m2.ram (b - 0xA000) = m.ram (b - 0xA000))
    (hp : 0x8000 ≤ b → b ≤ 0xDFFF → m2.ram (b - 0x8000) = m.ram (b - 0x8000)) :
    m2.get_u8 b = m.get_u8 b := by
  unfold Mem.get_u8
  by_cases c1 : 0xFF80 ≤ b ∧ b ≤ 0xFFFF
  · rw [if_pos c1, if_pos c1, hrs c1.1 c1.2]
  rw [if_neg c1, if_neg c1]
  by_cases c2 : 0xFF4C ≤ b ∧ b ≤ 0xFF7F
  · rw [if_pos c2, if_pos c2]
  rw [if_neg c2, if_neg c2]
  by_cases c3 : 0xFF00 ≤ b ∧ b ≤ 0xFF4B
  · rw [if_pos c3, if_pos c3, hio c3.1 c3.2]
  rw [if_neg c3, if_neg c3]
  by_cases c4 : 0xFEA0 ≤ b ∧ b ≤ 0xFEFF
  · rw [if_pos c4, if_pos c4]
  rw [if_neg c4, if_neg c4]
  by_cases c5 : 0xFE00 ≤ b ∧ b ≤ 0xFE9F
  · rw [if_pos c5, if_pos c5, hoam c5.1 c5.2]
  rw [if_neg c5, if_neg c5]
  by_cases c6 : 0xE000 ≤ b ∧ b ≤ 0xFDFF
  · rw [if_pos c6, if_pos c6, he c6.1 c6.2]
  rw [if_neg c6, if_neg c6]
  by_cases c7 : 0x8000 ≤ b ∧ b ≤ 0xDFFF
  · rw [if_pos c7, if_pos c7, hp c7.1 c7.2]
  rw [if_neg c7, if_neg c7, hc]

/-- A write at `a` leaves every address `b` unchanged as long as `b` is
neither `a` itself nor its echo-RAM alias at distance `0x2000`. -/
theorem Mem.get_u8_set_u8_ne (m m' : Mem) (a b v : Nat) (h : m.set_u8 a v = some m')
    (hne : b ≠ a) (ha1 : a + 0x2000 ≠ b) (ha2 : b + 0x2000 ≠ a) :
    m'.get_u8 b = m.get_u8 b := by
  unfold Mem.set_u8 at h
  by_cases c1 : 0xFF80 ≤ a ∧ a ≤ 0xFFFF
  · rw [if_pos c1] at h
    cases h
    apply Mem.get_u8_eq_of <;> intros <;> dsimp only <;>
      first
        | exact if_neg (by omega)
        | rfl
  rw [if_neg c1] at h
  by_cases c2 : 0xFF4C ≤ a ∧ a ≤ 0xFF7F
  · rw [if_pos c2] at h; cases h
  rw [if_neg c2] at h
  by_cases c3 : 0xFF00 ≤ a ∧ a ≤ 0xFF4B
  · rw [if_pos c3] at h
    cases h
    apply Mem.get_u8_eq_of <;> intros <;> dsimp only <;>
      first
        | exact if_neg (by omega)
        | rfl
  rw [if_neg c3] at h
  by_cases c4 : 0xFEA0 ≤ a ∧ a ≤ 0xFEFF
  · rw [if_pos c4] at h; cases h
  rw [if_neg c4] at h
  by_cases c5 : 0xFE00 ≤ a ∧ a ≤ 0xFE9F
  · rw [if_pos c5] at h
    cases h
    apply Mem.get_u8_eq_of <;> intros <;> dsimp only <;>
      first
        | exact if_neg (by omega)
        | rfl
  rw [if_neg c5] at h
  by_cases c6 : 0xE000 ≤ a ∧ a ≤ 0xFDFF
  · rw [if_pos c6] at h
    cases h
    apply Mem.get_u8_eq_of <;> intros <;> dsimp only <;>
      first
        | exact if_neg (by omega)
        | rfl
  rw [if_neg c6] at h
  by_cases c7 : 0x8000 ≤ a ∧ a ≤ 0xDFFF
  · rw [if_pos c7] at h
    cases h
    apply Mem.get_u8_eq_of <;> intros <;> dsimp only <;>
      first
        | exact if_neg (by omega)
        | rfl
  rw [if_neg c7] at h
  by_cases c8 : a ≤ 0x7FFF
  · rw [if_pos c8] at h; cases h
  · rw [if_neg c8] at h; cases h

/-! Claim C9. -/

set_option maxRecDepth 100000 in
/-- Subtract is cleared by `IncR8` (auxiliary case analysis for C9). -/
theorem incR8_clears_subtract (g : Gba) (reg : OpcodeRegister8) (g' : Gba) (c : Nat)
    (hflt : g.cpu.registers.f < 256) (h : g.execute (.IncR8 reg) = some (g', c)) :
    F8.is_set g'.cpu.registers.f .Subtract = false := by
  cases reg <;>
    simp only [Gba.execute, Option.bind_eq_bind, Option.bind_eq_some, Option.some.injEq,
      Prod.mk.injEq] at h
  case HL =>
    obtain ⟨v, hv, m2, hm2, ⟨gy, vy, cy⟩, ⟨rfl, rfl, rfl⟩, rfl, rfl⟩ := h
    dsimp only
    split_ifs <;>
      (revert hflt
       generalize g.cpu.registers.f = f
       revert f
       decide)
  all_goals (
    obtain ⟨⟨gy, vy, cy⟩, ⟨rfl, rfl, rfl⟩, rfl, rfl⟩ := h
    dsimp only [OpcodeRegister8.toRegister8, Registers.set_r8]
    split_ifs <;>
      (revert hflt
       generalize g.cpu.registers.f = f
       revert f
       decide))

set_option maxRecDepth 100000 in
/-- Subtract is cleared by `DecR8` (auxiliary case analysis for C9). -/
theorem decR8_clears_subtract (g : Gba) (reg : OpcodeRegister8) (g' : Gba) (c : Nat)
    (hflt : g.cpu.registers.f < 256) (h : g.execute (.DecR8 reg) = some (g', c)) :
    F8.is_set g'.cpu.registers.f .Subtract = false := by
  cases reg <;>
    simp only [Gba.execute, Option.bind_eq_bind, Option.bind_eq_some, Option.some.injEq,
      Prod.mk.injEq] at h
  case HL =>
    obtain ⟨v, hv, m2, hm2, ⟨gy, vy, cy⟩, ⟨rfl, rfl, rfl⟩, rfl, rfl⟩ := h
    dsimp only
    split_ifs <;>
      (revert hflt
       generalize g.cpu.registers.f = f
       revert f
       decide)
  all_goals (
    obtain ⟨⟨gy, vy, cy⟩, ⟨rfl, rfl, rfl⟩, rfl, rfl⟩ := h
    dsimp only [OpcodeRegister8.toRegister8, Registers.set_r8]
    split_ifs <;>
      (revert hflt
       generalize g.cpu.registers.f = f
       revert f
       decide))

/-- C9: both the 8-bit increment and the 8-bit decrement instruction clear
the Subtract flag (the decrement clears it too, per current behaviour). -/
theorem c9_inc_dec_clear_subtract :
    ∀ (g : Gba) (reg : OpcodeRegister8) (g' : Gba) (c : Nat),
      g.cpu.registers.f < 256 →
      (g.execute (.IncR8 reg) = some (g', c) →
        F8.is_set g'.cpu.registers.f .Subtract = false)
      ∧ (g.execute (.DecR8 reg) = some (g', c) →
        F8.is_set g'.cpu.registers.f .Subtract = false) :=
  fun g reg g' c hflt =>
    ⟨incR8_clears_subtract g reg g' c hflt, decR8_clears_subtract g reg g' c hflt⟩

/-- The state after executing `INC B` at the power-on state: `B = 1`,
Zero set (from the old value 0), Half-Carry clear. -/
def c9IncResult : Gba :=
  { cpu := { registers := ⟨1, 0, 0, 0, 0, 0, 0, 0x80, 0, 0⟩, ime := 0, cache := 0 }
    mem := Mem.new [] }

/-- The state after executing `DEC B` at the power-on state: `B = 1` (the
decrement arm also stores `old + 1`), Zero and Half-Carry set. -/
def c9DecResult : Gba :=
  { cpu := { registers := ⟨1, 0, 0, 0, 0, 0, 0, 0xA0, 0, 0⟩, ime := 0, cache := 0 }
    mem := Mem.new [] }

/-- C9 witness: the theorem applied at the power-on state and register `B`. -/
theorem c9_inc_dec_clear_subtract_witness :
    F8.is_set c9IncResult.cpu.registers.f .Subtract = false
    ∧ F8.is_set c9DecResult.cpu.registers.f .Subtract = false :=
  ⟨(c9_inc_dec_clear_subtract (Gba.power_on []) .B c9IncResult 1 (by decide)).1 rfl,
   (c9_inc_dec_clear_subtract (Gba.power_on []) .B c9DecResult 1 (by decide)).2 rfl⟩

/-! Claim C10. -/

/-- The state-update conclusion of C10: the instruction target (the named
8-bit register, or the byte at address `HL` for the `(HL)` variant) now
holds the old value plus one. -/
def targetUpdated (g g' : Gba) (reg : OpcodeRegister8) (v : Nat) : Prop :=
  match reg with
  | .HL => g'.mem.get_u8 (g.cpu.registers.get_r16 .HL) = some (u8_add v 1)
  | _ => g'.cpu.registers.get_r8 reg.toRegister8 = u8_add v 1

set_option maxRecDepth 100000 in
/-- The Zero flag produced by the `DecR8` flag pipeline is exactly the
"old value = 0" test. -/
theorem decR8_zero_pipeline (f val : Nat) (hflt : f < 256) :
    (F8.is_set
      (if u8_sub (val &&& 0x0F) 1 ≠ 0 then
        (if val = 0 then f &&& u8_not Flags.Subtract.toU8 ||| Flags.Zero.toU8
         else f &&& u8_not Flags.Subtract.toU8 &&& u8_not Flags.Zero.toU8) ||| Flags.HalfCarry.toU8
      else
        (if val = 0 then f &&& u8_not Flags.Subtract.toU8 ||| Flags.Zero.toU8
         else f &&& u8_not Flags.Subtract.toU8 &&& u8_not Flags.Zero.toU8) &&&
          u8_not Flags.HalfCarry.toU8)
      .Zero = true) ↔ val = 0 := by
  by_cases hz : val = 0 <;> by_cases hc : u8_sub (val &&& 0x0F) 1 ≠ 0
  · rw [if_pos hc, if_pos hz]
    exact iff_of_true (by revert f; decide) hz
  · rw [if_neg hc, if_pos hz]
    exact iff_of_true (by revert f; decide) hz
  · rw [if_pos hc, if_neg hz]
    exact iff_of_false (by revert f; decide) hz
  · rw [if_neg hc, if_neg hz]
    exact iff_of_false (by revert f; decide) hz

set_option maxRecDepth 100000 in
/-- The Zero flag produced by the `IncR8` flag pipeline is exactly the
"old value = 0" test. -/
theorem incR8_zero_pipeline (f val : Nat) (hflt : f < 256) :
    (F8.is_set
      (if val &&& 0x08 ≠ 0 then
        (if val = 0 then f &&& u8_not Flags.Subtract.toU8 ||| Flags.Zero.toU8
         else f &&& u8_not Flags.Subtract.toU8 &&& u8_not Flags.Zero.toU8) ||| Flags.HalfCarry.toU8
      else
        (if val = 0 then f &&& u8_not Flags.Subtract.toU8 ||| Flags.Zero.toU8
         else f &&& u8_not Flags.Subtract.toU8 &&& u8_not Flags.Zero.toU8) &&&
          u8_not Flags.HalfCarry.toU8)
      .Zero = true) ↔ val = 0 := by
  by_cases hz : val = 0 <;> by_cases hc : val &&& 0x08 ≠ 0
  · rw [if_pos hc, if_pos hz]
    exact iff_of_true (by revert f; decide) hz
  · rw [if_neg hc, if_pos hz]
    exact iff_of_true (by revert f; decide) hz
  · rw [if_pos hc, if_neg hz]
    exact iff_of_false (by revert f; decide) hz
  · rw [if_neg hc, if_neg hz]
    exact iff_of_false (by revert f; decide) hz

/-- Auxiliary case analysis for C10: `DecR8` stores `old + 1` into its
target and sets Zero iff the old value was 0. -/
theorem decR8_target_and_zero (g : Gba) (reg : OpcodeRegister8) (v cyc : Nat) (g' : Gba)
    (c : Nat) (hflt : g.cpu.registers.f < 256)
    (hf : g.fetch_register_8 reg = some (v, cyc))
    (h : g.execute (.DecR8 reg) = some (g', c)) :
    targetUpdated g g' reg v
    ∧ (F8.is_set g'.cpu.registers.f .Zero = true ↔ v = 0) := by
  cases reg <;>
    simp only [Gba.execute, Gba.fetch_register_8, Option.map_eq_some', Option.bind_eq_bind,
      Option.bind_eq_some, Option.some.injEq, Prod.mk.injEq] at h hf
  case HL =>
    obtain ⟨v2, hv2, ⟨rfl, rfl⟩⟩ := hf
    obtain ⟨v3, hv3, m2, hm2, ⟨gy, vy, cy⟩, ⟨rfl, rfl, rfl⟩, rfl, rfl⟩ := h
    rw [hv2] at hv3
    obtain ⟨rfl⟩ := hv3
    constructor
    · dsimp only [targetUpdated]
      rw [Mem.get_u8_set_u8_same _ _ _ _ hm2]
      exact congrArg some (by unfold u8_add; omega)
    · exact decR8_zero_pipeline _ _ hflt
  all_goals (
    obtain ⟨rfl, rfl⟩ := hf
    obtain ⟨⟨gy, vy, cy⟩, ⟨rfl, rfl, rfl⟩, rfl, rfl⟩ := h
    refine ⟨?_, ?_⟩
    · dsimp only [targetUpdated, OpcodeRegister8.toRegister8, Registers.set_r8,
        Registers.get_r8]
      unfold u8_add
      omega
    · exact decR8_zero_pipeline _ _ hflt)

/-- Auxiliary case analysis for C10: `IncR8` stores `old + 1` into its
target and sets Zero iff the old value was 0. -/
theorem incR8_target_and_zero (g : Gba) (reg : OpcodeRegister8) (v cyc : Nat) (g' : Gba)
    (c : Nat) (hflt : g.cpu.registers.f < 256)
    (hf : g.fetch_register_8 reg = some (v, cyc))
    (h : g.execute (.IncR8 reg) = some (g', c)) :
    targetUpdated g g' reg v
    ∧ (F8.is_set g'.cpu.registers.f .Zero = true ↔ v = 0) := by
  cases reg <;>
    simp only [Gba.execute, Gba.fetch_register_8, Option.map_eq_some', Option.bind_eq_bind,
      Option.bind_eq_some, Option.some.injEq, Prod.mk.injEq] at h hf
  case HL =>
    obtain ⟨v2, hv2, ⟨rfl, rfl⟩⟩ := hf
    obtain ⟨v3, hv3, m2, hm2, ⟨gy, vy, cy⟩, ⟨rfl, rfl, rfl⟩, rfl, rfl⟩ := h
    rw [hv2] at hv3
    obtain ⟨rfl⟩ := hv3
    constructor
    · dsimp only [targetUpdated]
      rw [Mem.get_u8_set_u8_same _ _ _ _ hm2]
      exact congrArg some (by unfold u8_add; omega)
    · exact incR8_zero_pipeline _ _ hflt
  all_goals (
    obtain ⟨rfl, rfl⟩ := hf
    obtain ⟨⟨gy, vy, cy⟩, ⟨rfl, rfl, rfl⟩, rfl, rfl⟩ := h
    refine ⟨?_, ?_⟩
    · dsimp only [targetUpdated, OpcodeRegister8.toRegister8, Registers.set_r8,
        Registers.get_r8]
      unfold u8_add
      omega
    · exact incR8_zero_pipeline _ _ hflt)

/-- C10: `DecR8` updates its target (register or the byte at `(HL)`) to
`old + 1` modulo 256 — the same state update `IncR8` performs, not a
decrement — and for both `IncR8` and `DecR8` the Zero flag is set iff the
OLD, pre-operation value was 0, not iff the stored result is 0. -/
theorem c10_dec_increments_and_zero_tests_old :
    ∀ (g : Gba) (reg : OpcodeRegister8) (v cyc : Nat) (g' : Gba) (c : Nat),
      g.cpu.registers.f < 256 →
      g.fetch_register_8 reg = some (v, cyc) →
      (g.execute (.DecR8 reg) = some (g', c) →
        targetUpdated g g' reg v
        ∧ (F8.is_set g'.cpu.registers.f .Zero = true ↔ v = 0))
      ∧ (g.execute (.IncR8 reg) = some (g', c) →
        targetUpdated g g' reg v
        ∧ (F8.is_set g'.cpu.registers.f .Zero = true ↔ v = 0)) :=
  fun g reg v cyc g' c hflt hf =>
    ⟨decR8_target_and_zero g reg v cyc g' c hflt hf,
     incR8_target_and_zero g reg v cyc g' c hflt hf⟩

/-- C10 witness: `DEC B` and `INC B` executed at the power-on state (old
`B = 0`): `B` becomes 1 in both and Zero is set because the old value was
zero. -/
theorem c10_dec_increments_and_zero_tests_old_witness :
    (targetUpdated (Gba.power_on []) c9DecResult .B 0
      ∧ (F8.is_set c9DecResult.cpu.registers.f .Zero = true ↔ (0 : Nat) = 0))
    ∧ (targetUpdated (Gba.power_on []) c9IncResult .B 0
      ∧ (F8.is_set c9IncResult.cpu.registers.f .Zero = true ↔ (0 : Nat) = 0)) :=
  ⟨(c10_dec_increments_and_zero_tests_old (Gba.power_on []) .B 0 0 c9DecResult 1
      (by decide) rfl).1 rfl,
   (c10_dec_increments_and_zero_tests_old (Gba.power_on []) .B 0 0 c9IncResult 1
      (by decide) rfl).2 rfl⟩

/-! Claim C4: the cycle-count formula. -/
/-- Whether a conditional-control-flow condition holds on a flags byte. -/
def takenOf (f : Nat) : JumpCondition → Bool
  | .Always => true
  | .SetFlag fl => F8.is_set f fl
  | .UnsetFlag fl => !F8.is_set f fl

/-- Modelled from the spec: the cycle formula of section 4.5 — 1 baseline,
plus 1 per immediate byte fetched (2 for a 16-bit immediate), plus 1 per
byte moved through an indirect memory access, plus the extra taken cost
(1 for setting the program counter, and for calls/returns additionally
their two stack-byte accesses) only when the condition holds.  Each arm
spells the sum as baseline + immediate bytes + memory accesses (+ taken
extras).  `Halt`/`Stop` are unsupported by the engine and get 0. -/
def specCycles (op : Opcode) (f : Nat) : Nat :=
  match op with
  | .LoadR8 dst src => 1 + (if src = .HL then 1 else 0) + (if dst = .HL then 1 else 0)
  | .LoadImm8 dst => 1 + 1 + (if dst = .HL then 1 else 0)
  | .LoadIndR16 _ _ => 1 + 1
  | .LoadIndOffImm8 _ => 1 + 1 + 1
  | .LoadIndOffRegC _ => 1 + 1
  | .LoadIndImm16 _ => 1 + 2 + 1
  | .LoadImm16 _ => 1 + 2
  | .LoadIndImm16SP => 1 + 2 + 2
  | .LoadSPHL => 1
  | .PushR16 _ => 1 + 2
  | .PopR16 _ => 1 + 2
  | .LoadHLOffSp => 1 + 1 + 2
  | .MathR8 _ src => 1 + (if src = .HL then 1 else 0)
  | .MathImm8 _ => 1 + 1
  | .IncR8 reg => 1 + (if reg = .HL then 2 else 0)
  | .DecR8 reg => 1 + (if reg = .HL then 2 else 0)
  | .ComplementCarryFlag => 1
  | .SetCarryFlag => 1
  | .DecimalAdjustAccumulator => 1
  | .ComplementAccumulator => 1
  | .IncR16 _ => 1
  | .DecR16 _ => 1
  | .AddR16 _ => 1
  | .AddSPImm8 => 1 + 1
  | .RotateLeftCircularAccumulator => 1
  | .RotateRightCircularAccumulator => 1
  | .RotateLeftAccumulator => 1
  | .RotateRightAccumulator => 1
  | .JumpImm16 cond => 1 + 2 + (if takenOf f cond then 1 else 0)
  | .JumpHL => 1
  | .JumpOffImm8 cond => 1 + 1 + (if takenOf f cond then 1 else 0)
  | .CallImm16 cond => 1 + 2 + (if takenOf f cond then 2 + 1 else 0)
  | .Return cond => 1 + (if takenOf f cond then 2 + 1 else 0)
  | .ReturnInterupt => 1 + 2 + 1
  | .Restart _ => 1 + 2 + 1
  | .Halt => 0
  | .Stop => 0
  | .DisableInterrupts => 1
  | .EnableInterrupts => 1
  | .Noop => 1

/-- The fixed extra cycle the engine charges beyond the spec formula:
`LoadIndR16`, `LoadSPHL`, `PushR16`, the three 16-bit arithmetic
instructions, and `Return` (whether or not its condition holds). -/
def extraCycles : Opcode → Nat
  | .LoadIndR16 _ _ => 1
  | .LoadSPHL => 1
  | .PushR16 _ => 1
  | .IncR16 _ => 1
  | .DecR16 _ => 1
  | .AddR16 _ => 1
  | .Return _ => 1
  | _ => 0

/-- The one cycle the engine charges less than the spec formula:
`LoadHLOffSp` performs a 16-bit read but charges only one access, and
`AddSPImm8` fetches its immediate byte without ever adding the fetch
cost to its cycle total. -/
def missingCycles : Opcode → Nat
  | .LoadHLOffSp => 1
  | .AddSPImm8 => 1
  | _ => 0

/-- The amended cycle count: the spec formula of `specCycles` with the
per-opcode corrections of `extraCycles` and `missingCycles`. -/
def specCyclesAmended (op : Opcode) (f : Nat) : Nat :=
  specCycles op f + extraCycles op - missingCycles op

/-- `fetch_byte` costs one cycle and leaves the flags untouched. -/
theorem fetch_byte_spec (g g2 : Gba) (v cyc : Nat) (h : g.fetch_byte = some (g2, v, cyc)) :
    cyc = 1 ∧ g2.cpu.registers.f = g.cpu.registers.f := by
  unfold Gba.fetch_byte at h
  cases hg : g.mem.get_u8 g.cpu.registers.pc with
  | none => rw [hg] at h; cases h
  | some b =>
    rw [hg] at h
    simp only [Option.bind_eq_bind, Option.some_bind, Option.some.injEq, Prod.mk.injEq] at h
    obtain ⟨rfl, rfl, rfl⟩ := h
    exact ⟨rfl, rfl⟩

/-- `fetch_word` costs two cycles and leaves the flags untouched. -/
theorem fetch_word_spec (g g2 : Gba) (v cyc : Nat) (h : g.fetch_word = some (g2, v, cyc)) :
    cyc = 2 ∧ g2.cpu.registers.f = g.cpu.registers.f := by
  unfold Gba.fetch_word at h
  cases hg : g.mem.get_u16 g.cpu.registers.pc with
  | none => rw [hg] at h; cases h
  | some b =>
    rw [hg] at h
    simp only [Option.bind_eq_bind, Option.some_bind, Option.some.injEq, Prod.mk.injEq] at h
    obtain ⟨rfl, rfl, rfl⟩ := h
    exact ⟨rfl, rfl⟩

/-- `fetch_register_8` charges one cycle exactly for the `(HL)` operand. -/
theorem fetch_register_8_cyc (g : Gba) (reg : OpcodeRegister8) (v cyc : Nat)
    (h : g.fetch_register_8 reg = some (v, cyc)) :
    cyc = if reg = .HL then 1 else 0 := by
  cases reg <;>
    simp only [Gba.fetch_register_8, Option.map_eq_some', Option.some.injEq,
      Prod.mk.injEq] at h
  case HL =>
    obtain ⟨v2, hv2, rfl, rfl⟩ := h
    rfl
  all_goals (obtain ⟨rfl, rfl⟩ := h; rfl)

/-- `push` always costs two cycles when it succeeds. -/
theorem push_cyc (g g2 : Gba) (v c : Nat) (h : g.push v = some (g2, c)) : c = 2 := by
  unfold Gba.push at h
  simp only [Option.bind_eq_bind, Option.bind_eq_some, Option.some.injEq,
    Prod.mk.injEq] at h
  obtain ⟨m, hm, rfl, rfl⟩ := h
  rfl

/-- `jump` charges one extra cycle exactly when the condition holds. -/
theorem jump_cyc (g g2 : Gba) (addr : Nat) (cond : JumpCondition) (jc : Nat)
    (h : g.jump addr cond = (g2, jc)) :
    jc = if takenOf g.cpu.registers.f cond then 1 else 0 := by
  cases cond with
  | Always =>
    simp only [Gba.jump] at h
    obtain ⟨rfl, rfl⟩ := Prod.mk.injEq .. ▸ h
    rfl
  | SetFlag fl =>
    simp only [Gba.jump] at h
    cases hs : F8.is_set g.cpu.registers.f fl <;>
      simp only [hs, if_true, if_false] at h <;>
      (obtain ⟨rfl, rfl⟩ := Prod.mk.injEq .. ▸ h
       simp [takenOf, hs])
  | UnsetFlag fl =>
    simp only [Gba.jump] at h
    cases hs : F8.is_set g.cpu.registers.f fl <;>
      simp only [hs, Bool.not_true, Bool.not_false, if_true, if_false] at h <;>
      (obtain ⟨rfl, rfl⟩ := Prod.mk.injEq .. ▸ h
       simp [takenOf, hs])

/-- `call` charges three extra cycles (two stack writes plus the jump)
exactly when the condition holds. -/
theorem call_cyc (g g2 : Gba) (addr : Nat) (cond : JumpCondition) (cc : Nat)
    (h : g.call addr cond = some (g2, cc)) :
    cc = if takenOf g.cpu.registers.f cond then 3 else 0 := by
  cases cond with
  | Always =>
    simp only [Gba.call, Option.bind_eq_bind, Option.bind_eq_some, Option.some.injEq,
      Prod.mk.injEq] at h
    obtain ⟨⟨g3, pc⟩, hp, rfl, rfl⟩ := h
    rw [push_cyc _ _ _ _ hp]
    rfl
  | SetFlag fl =>
    cases hs : F8.is_set g.cpu.registers.f fl <;>
      simp only [Gba.call, hs, if_true, if_false, Option.bind_eq_bind, Option.bind_eq_some,
        Option.some.injEq, Prod.mk.injEq] at h
    · obtain ⟨rfl, rfl⟩ := h
      simp [takenOf, hs]
    · obtain ⟨⟨g3, pc⟩, hp, rfl, rfl⟩ := h
      rw [push_cyc _ _ _ _ hp]
      simp [takenOf, hs]
  | UnsetFlag fl =>
    cases hs : F8.is_set g.cpu.registers.f fl <;>
      simp only [Gba.call, hs, Bool.not_true, Bool.not_false, if_true, if_false,
        Option.bind_eq_bind, Option.bind_eq_some, Option.some.injEq, Prod.mk.injEq] at h
    · obtain ⟨⟨g3, pc⟩, hp, rfl, rfl⟩ := h
      rw [push_cyc _ _ _ _ hp]
      simp [takenOf, hs]
    · obtain ⟨rfl, rfl⟩ := h
      simp [takenOf, hs]

/-- C4 (amended): the engine's cycle count equals the spec formula
(`specCycles`) corrected by the fixed per-opcode deviations
(`extraCycles`, `missingCycles`). -/
theorem c4_cycle_count_amended :
    ∀ (g : Gba) (op : Opcode) (g' : Gba) (c : Nat),
      g.execute op = some (g', c) → c = specCyclesAmended op g.cpu.registers.f := by
  intro g op g' c h
  cases op
  case LoadR8 dst src =>
    cases src <;> cases dst <;>
      simp only [Gba.execute, Option.bind_eq_bind, Option.bind_eq_some, Option.some.injEq,
        Prod.mk.injEq] at h <;>
      first
        | (obtain ⟨v, hv, ⟨ga, va, ca⟩, ⟨rfl, rfl, rfl⟩, m, hm, rfl, rfl⟩ := h; rfl)
        | (obtain ⟨v, hv, ⟨ga, va, ca⟩, ⟨rfl, rfl, rfl⟩, rfl, rfl⟩ := h; rfl)
        | (obtain ⟨⟨ga, va, ca⟩, ⟨rfl, rfl, rfl⟩, m, hm, rfl, rfl⟩ := h; rfl)
        | (obtain ⟨⟨ga, va, ca⟩, ⟨rfl, rfl, rfl⟩, rfl, rfl⟩ := h; rfl)
  case LoadImm8 dst =>
    cases dst <;>
      simp only [Gba.execute, Option.bind_eq_bind, Option.bind_eq_some, Option.some.injEq,
        Prod.mk.injEq] at h <;>
      first
        | (obtain ⟨⟨g2, v, cyc⟩, hfb, m, hm, rfl, rfl⟩ := h
           obtain ⟨rfl, hfp⟩ := fetch_byte_spec _ _ _ _ hfb
           rfl)
        | (obtain ⟨⟨g2, v, cyc⟩, hfb, rfl, rfl⟩ := h
           obtain ⟨rfl, hfp⟩ := fetch_byte_spec _ _ _ _ hfb
           rfl)
  case LoadIndR16 src direction =>
    cases src <;> cases direction <;>
      simp only [Gba.execute, Option.bind_eq_bind, Option.bind_eq_some, Option.some.injEq,
        Prod.mk.injEq] at h <;>
      first
        | (obtain ⟨m, hm, rfl, rfl⟩ := h; rfl)
        | (obtain ⟨v, hv, rfl, rfl⟩ := h; rfl)
  case LoadIndOffImm8 direction =>
    cases direction <;>
      simp only [Gba.execute, Option.bind_eq_bind, Option.bind_eq_some, Option.some.injEq,
        Prod.mk.injEq] at h <;>
      first
        | (obtain ⟨⟨g2, off, cyc⟩, hfb, m, hm, rfl, rfl⟩ := h
           obtain ⟨rfl, hfp⟩ := fetch_byte_spec _ _ _ _ hfb
           rfl)
        | (obtain ⟨⟨g2, off, cyc⟩, hfb, v, hv, rfl, rfl⟩ := h
           obtain ⟨rfl, hfp⟩ := fetch_byte_spec _ _ _ _ hfb
           rfl)
  case LoadIndOffRegC direction =>
    cases direction <;>
      simp only [Gba.execute, Option.bind_eq_bind, Option.bind_eq_some, Option.some.injEq,
        Prod.mk.injEq] at h <;>
      first
        | (obtain ⟨m, hm, rfl, rfl⟩ := h; rfl)
        | (obtain ⟨v, hv, rfl, rfl⟩ := h; rfl)
  case LoadIndImm16 direction =>
    cases direction <;>
      simp only [Gba.execute, Option.bind_eq_bind, Option.bind_eq_some, Option.some.injEq,
        Prod.mk.injEq] at h <;>
      first
        | (obtain ⟨⟨g2, addr, cyc⟩, hfw, m, hm, rfl, rfl⟩ := h
           obtain ⟨rfl, hfp⟩ := fetch_word_spec _ _ _ _ hfw
           rfl)
        | (obtain ⟨⟨g2, addr, cyc⟩, hfw, v, hv, rfl, rfl⟩ := h
           obtain ⟨rfl, hfp⟩ := fetch_word_spec _ _ _ _ hfw
           rfl)
  case LoadImm16 dst =>
    simp only [Gba.execute, Option.bind_eq_bind, Option.bind_eq_some, Option.some.injEq,
      Prod.mk.injEq] at h
    obtain ⟨⟨g2, v, cyc⟩, hfw, rfl, rfl⟩ := h
    obtain ⟨rfl, hfp⟩ := fetch_word_spec _ _ _ _ hfw
    rfl
  case LoadIndImm16SP =>
    simp only [Gba.execute, Option.bind_eq_bind, Option.bind_eq_some, Option.some.injEq,
      Prod.mk.injEq] at h
    obtain ⟨⟨g2, addr, cyc⟩, hfw, m, hm, rfl, rfl⟩ := h
    obtain ⟨rfl, hfp⟩ := fetch_word_spec _ _ _ _ hfw
    rfl
  case LoadSPHL =>
    simp only [Gba.execute, Option.some.injEq, Prod.mk.injEq] at h
    obtain ⟨rfl, rfl⟩ := h
    rfl
  case PushR16 src =>
    simp only [Gba.execute, Option.bind_eq_bind, Option.bind_eq_some, Option.some.injEq,
      Prod.mk.injEq] at h
    obtain ⟨⟨g2, pc⟩, hp, rfl, rfl⟩ := h
    rw [push_cyc _ _ _ _ hp]
    rfl
  case PopR16 dst =>
    simp only [Gba.execute, Option.bind_eq_bind, Option.bind_eq_some, Option.some.injEq,
      Prod.mk.injEq] at h
    obtain ⟨v, hv, rfl, rfl⟩ := h
    rfl
  case LoadHLOffSp =>
    simp only [Gba.execute, Option.bind_eq_bind, Option.bind_eq_some, Option.some.injEq,
      Prod.mk.injEq] at h
    obtain ⟨⟨g2, off, cyc⟩, hfb, v, hv, rfl, rfl⟩ := h
    obtain ⟨rfl, hfp⟩ := fetch_byte_spec _ _ _ _ hfb
    rfl
  case MathR8 op src =>
    cases op <;>
      simp only [Gba.execute, Option.bind_eq_bind, Option.bind_eq_some, Option.some.injEq,
        Prod.mk.injEq] at h <;>
      (obtain ⟨⟨srcv, cyc⟩, hfr, rfl, rfl⟩ := h
       rw [fetch_register_8_cyc _ _ _ _ hfr]
       simp [specCyclesAmended, specCycles, extraCycles, missingCycles])
  case MathImm8 op =>
    cases op <;>
      simp only [Gba.execute, Option.bind_eq_bind, Option.bind_eq_some, Option.some.injEq,
        Prod.mk.injEq] at h <;>
      (obtain ⟨⟨g2, v, cyc⟩, hfb, rfl, rfl⟩ := h
       obtain ⟨rfl, hfp⟩ := fetch_byte_spec _ _ _ _ hfb
       rfl)
  case IncR8 reg =>
    cases reg <;>
      simp only [Gba.execute, Option.bind_eq_bind, Option.bind_eq_some, Option.some.injEq,
        Prod.mk.injEq] at h <;>
      first
        | (obtain ⟨v, hv, m, hm, ⟨ga, va, ca⟩, ⟨rfl, rfl, rfl⟩, rfl, rfl⟩ := h; rfl)
        | (obtain ⟨⟨ga, va, ca⟩, ⟨rfl, rfl, rfl⟩, rfl, rfl⟩ := h; rfl)
  case DecR8 reg =>
    cases reg <;>
      simp only [Gba.execute, Option.bind_eq_bind, Option.bind_eq_some, Option.some.injEq,
        Prod.mk.injEq] at h <;>
      first
        | (obtain ⟨v, hv, m, hm, ⟨ga, va, ca⟩, ⟨rfl, rfl, rfl⟩, rfl, rfl⟩ := h; rfl)
        | (obtain ⟨⟨ga, va, ca⟩, ⟨rfl, rfl, rfl⟩, rfl, rfl⟩ := h; rfl)
  case ComplementCarryFlag =>
    simp only [Gba.execute, Option.some.injEq, Prod.mk.injEq] at h
    obtain ⟨rfl, rfl⟩ := h
    rfl
  case SetCarryFlag =>
    simp only [Gba.execute, Option.some.injEq, Prod.mk.injEq] at h
    obtain ⟨rfl, rfl⟩ := h
    rfl
  case DecimalAdjustAccumulator =>
    simp only [Gba.execute, Option.some.injEq, Prod.mk.injEq] at h
    obtain ⟨rfl, rfl⟩ := h
    rfl
  case ComplementAccumulator =>
    simp only [Gba.execute, Option.some.injEq, Prod.mk.injEq] at h
    obtain ⟨rfl, rfl⟩ := h
    rfl
  case IncR16 src =>
    simp only [Gba.execute, Option.some.injEq, Prod.mk.injEq] at h
    obtain ⟨rfl, rfl⟩ := h
    rfl
  case DecR16 src =>
    simp only [Gba.execute, Option.some.injEq, Prod.mk.injEq] at h
    obtain ⟨rfl, rfl⟩ := h
    rfl
  case AddR16 src =>
    simp only [Gba.execute, Option.some.injEq, Prod.mk.injEq] at h
    obtain ⟨rfl, rfl⟩ := h
    rfl
  case AddSPImm8 =>
    simp only [Gba.execute, Option.bind_eq_bind, Option.bind_eq_some, Option.some.injEq,
      Prod.mk.injEq] at h
    obtain ⟨⟨g2, off, cyc⟩, hfb, rfl, rfl⟩ := h
    rfl
  case RotateLeftCircularAccumulator =>
    simp only [Gba.execute, Option.some.injEq, Prod.mk.injEq] at h
    obtain ⟨rfl, rfl⟩ := h
    rfl
  case RotateRightCircularAccumulator =>
    simp only [Gba.execute, Option.some.injEq, Prod.mk.injEq] at h
    obtain ⟨rfl, rfl⟩ := h
    rfl
  case RotateLeftAccumulator =>
    simp only [Gba.execute, Option.some.injEq, Prod.mk.injEq] at h
    obtain ⟨rfl, rfl⟩ := h
    rfl
  case RotateRightAccumulator =>
    simp only [Gba.execute, Option.some.injEq, Prod.mk.injEq] at h
    obtain ⟨rfl, rfl⟩ := h
    rfl
  case JumpImm16 condition =>
    simp only [Gba.execute, Option.bind_eq_bind, Option.bind_eq_some, Option.some.injEq,
      Prod.mk.injEq] at h
    obtain ⟨⟨g2, addr, cyc⟩, hfw, h⟩ := h
    obtain ⟨rfl, hfp⟩ := fetch_word_spec _ _ _ _ hfw
    rcases hj : g2.jump addr condition with ⟨g3, jc⟩
    rw [hj] at h
    simp only [Option.some.injEq, Prod.mk.injEq] at h
    obtain ⟨rfl, rfl⟩ := h
    have hjc := jump_cyc _ _ _ _ _ hj
    rw [hfp] at hjc
    rw [hjc]
    rfl
  case JumpHL =>
    simp only [Gba.execute, Option.some.injEq, Prod.mk.injEq] at h
    obtain ⟨rfl, rfl⟩ := h
    rfl
  case JumpOffImm8 condition =>
    simp only [Gba.execute, Option.bind_eq_bind, Option.bind_eq_some, Option.some.injEq,
      Prod.mk.injEq] at h
    obtain ⟨⟨g2, off, cyc⟩, hfb, h⟩ := h
    obtain ⟨rfl, hfp⟩ := fetch_byte_spec _ _ _ _ hfb
    rcases hj : g2.jump (u16_add g2.cpu.registers.pc (if off < 0x80 then off else 0xFF00 + off))
        condition with ⟨g3, jc⟩
    rw [hj] at h
    simp only [Option.some.injEq, Prod.mk.injEq] at h
    obtain ⟨rfl, rfl⟩ := h
    have hjc := jump_cyc _ _ _ _ _ hj
    rw [hfp] at hjc
    rw [hjc]
    rfl
  case CallImm16 condition =>
    simp only [Gba.execute, Option.bind_eq_bind, Option.bind_eq_some, Option.some.injEq,
      Prod.mk.injEq] at h
    obtain ⟨⟨g2, addr, cyc⟩, hfw, ⟨g3, cc⟩, hc, rfl, rfl⟩ := h
    obtain ⟨rfl, hfp⟩ := fetch_word_spec _ _ _ _ hfw
    have hcc := call_cyc _ _ _ _ _ hc
    rw [hfp] at hcc
    rw [hcc]
    rfl
  case Return condition =>
    cases condition with
    | Always =>
      simp only [Gba.execute, Option.bind_eq_bind, Option.bind_eq_some, Option.some.injEq,
        Prod.mk.injEq] at h
      obtain ⟨v, hv, rfl, rfl⟩ := h
      rfl
    | SetFlag fl =>
      cases hs : F8.is_set g.cpu.registers.f fl <;>
        simp only [Gba.execute, hs, if_true, if_false, Option.bind_eq_bind,
          Option.bind_eq_some, Option.some.injEq, Prod.mk.injEq] at h
      · obtain ⟨rfl, rfl⟩ := h
        simp [specCyclesAmended, specCycles, extraCycles, missingCycles, takenOf, hs]
      · obtain ⟨v, hv, rfl, rfl⟩ := h
        simp [specCyclesAmended, specCycles, extraCycles, missingCycles, takenOf, hs]
    | UnsetFlag fl =>
      cases hs : F8.is_set g.cpu.registers.f fl <;>
        simp only [Gba.execute, hs, Bool.not_true, Bool.not_false, if_true, if_false,
          Option.bind_eq_bind, Option.bind_eq_some, Option.some.injEq, Prod.mk.injEq] at h
      · obtain ⟨v, hv, rfl, rfl⟩ := h
        simp [specCyclesAmended, specCycles, extraCycles, missingCycles, takenOf, hs]
      · obtain ⟨rfl, rfl⟩ := h
        simp [specCyclesAmended, specCycles, extraCycles, missingCycles, takenOf, hs]
  case ReturnInterupt =>
    simp only [Gba.execute, Option.bind_eq_bind, Option.bind_eq_some, Option.some.injEq,
      Prod.mk.injEq] at h
    obtain ⟨v, hv, rfl, rfl⟩ := h
    rfl
  case Restart vector =>
    simp only [Gba.execute, Option.bind_eq_bind, Option.bind_eq_some, Option.some.injEq,
      Prod.mk.injEq] at h
    obtain ⟨⟨g2, pc⟩, hp, rfl, rfl⟩ := h
    rw [push_cyc _ _ _ _ hp]
    rfl
  case Halt =>
    simp only [Gba.execute] at h
    exact Option.noConfusion h
  case Stop =>
    simp only [Gba.execute] at h
    exact Option.noConfusion h
  case DisableInterrupts =>
    simp only [Gba.execute, Option.some.injEq, Prod.mk.injEq] at h
    obtain ⟨rfl, rfl⟩ := h
    rfl
  case EnableInterrupts =>
    simp only [Gba.execute, Option.some.injEq, Prod.mk.injEq] at h
    obtain ⟨rfl, rfl⟩ := h
    rfl
  case Noop =>
    simp only [Gba.execute, Option.some.injEq, Prod.mk.injEq] at h
    obtain ⟨rfl, rfl⟩ := h
    rfl

/-- C4 counterexample: the spec formula as written undercounts `LoadSPHL` —
the engine charges 2 cycles (it models the extra internal cycle of the
16-bit copy), while the formula's terms give only 1. -/
theorem c4_spec_formula_counterexample :
    ((Gba.power_on []).execute .LoadSPHL).map Prod.snd = some 2 ∧
    specCycles .LoadSPHL ((Gba.power_on []).cpu.registers.f) = 1 :=
  ⟨rfl, rfl⟩

theorem c4_cycle_count_amended_witness :
    (Gba.power_on []).execute .Noop = some (Gba.power_on [], 1) ∧
    1 = specCyclesAmended .Noop (Gba.power_on []).cpu.registers.f :=
  ⟨rfl, c4_cycle_count_amended (Gba.power_on []) .Noop (Gba.power_on []) 1 rfl⟩


/-! Claim C6 and its stack helper lemmas. -/

theorem get_r16_set_r16 (r : Registers) (p : Register16) (w : Nat) (hw : w < 65536) :
    (r.set_r16 p w).get_r16 p = w := by
  cases p <;> simp [Registers.set_r16, Registers.get_r16] <;> omega

theorem lor_low_high (X : Nat) (hX : X < 65536) : X % 256 ||| (X / 256) <<< 8 = X := by
  have h28 : (2 : Nat) ^ 8 = 256 := rfl
  have blt : X % 256 < 2 ^ 8 := by rw [h28]; omega
  have hmo := Nat.mul_add_lt_is_or blt (X / 256)
  rw [Nat.shiftLeft_eq, Nat.lor_comm, Nat.mul_comm, ← hmo, h28]
  omega

/-- Specification of `Gba::push` on a writable stack area: the pointer
drops by 2 and the two bytes of the word are stored low-byte-first; all
non-aliased addresses keep their contents. -/
theorem push_spec (g : Gba) (X sp : Nat) (hsp : g.cpu.registers.sp = sp) (hX : X < 65536)
    (hsp2 : 2 ≤ sp) (hspM : sp ≤ 0xFFFF)
    (w2 : Mem.writable (sp - 2)) (w1 : Mem.writable (sp - 1)) :
    ∃ m', g.push X = some ({ g with cpu.registers.sp := sp - 2, mem := m' }, 2)
      ∧ m'.get_u8 (sp - 2) = some (X % 256)
      ∧ m'.get_u8 (sp - 1) = some (X / 256)
      ∧ ∀ b, b ≠ sp - 2 → b ≠ sp - 1 →
          b + 0x2000 ≠ sp - 2 → sp - 2 + 0x2000 ≠ b →
          b + 0x2000 ≠ sp - 1 → sp - 1 + 0x2000 ≠ b →
          m'.get_u8 b = g.mem.get_u8 b := by
  obtain ⟨mA, hmA⟩ := Mem.set_u8_writable g.mem (sp - 2) (X &&& 0xFF) w2
  obtain ⟨mB, hmB⟩ := Mem.set_u8_writable mA (sp - 1) (X >>> 8) w1
  have hmod : (sp - 2 + 1) % 65536 = sp - 1 := by omega
  have hand : (X &&& 0xFF) % 256 = X % 256 := by
    rw [show (0xFF : Nat) = 2 ^ 8 - 1 from rfl, Nat.and_pow_two_sub_one_eq_mod,
      show (2 : Nat) ^ 8 = 256 from rfl]
    omega
  have hshr : (X >>> 8) % 256 = X / 256 := by
    rw [Nat.shiftRight_eq_div_pow, show (2 : Nat) ^ 8 = 256 from rfl]
    omega
  refine ⟨mB, ?_, ?_, ?_, ?_⟩
  · unfold Gba.push Mem.set_u16 u16_sub
    rw [hsp, if_neg (by omega)]
    dsimp only
    rw [hmA]
    simp only [Option.bind_eq_bind, Option.some_bind]
    rw [hmod, hmB]
    simp only [Option.some_bind]
  · rw [Mem.get_u8_set_u8_ne mA mB _ _ _ hmB (by omega) (by omega) (by omega),
      Mem.get_u8_set_u8_same _ _ _ _ hmA, hand]
  · rw [Mem.get_u8_set_u8_same _ _ _ _ hmB, hshr]
  · intro b h1 h2 h3 h4 h5 h6
    rw [Mem.get_u8_set_u8_ne mA mB _ _ _ hmB h2 h6 h5,
      Mem.get_u8_set_u8_ne g.mem mA _ _ _ hmA h1 h4 h3]

/-- Specification of the `PopR16` arm on a non-wrapping stack pointer: the
16-bit word is read little-endian at `sp`, the pair receives it, and the
pointer rises by 2. -/
theorem pop_spec (g : Gba) (dst : OpcodeRegister16) (X sp : Nat)
    (hsp : g.cpu.registers.sp = sp) (hX : X < 65536) (hspM : sp + 2 < 65536)
    (hlow : g.mem.get_u8 sp = some (X % 256))
    (hhigh : g.mem.get_u8 (sp + 1) = some (X / 256)) :
    ∃ g2, g.execute (.PopR16 dst) = some (g2, 3)
      ∧ g2.cpu.registers.get_r16 dst.toRegister16 = X
      ∧ g2.cpu.registers.sp = sp + 2
      ∧ g2.mem = g.mem := by
  have hmod : (sp + 1) % 65536 = sp + 1 := by omega
  refine ⟨{ g with cpu.registers := Registers.set_r16 { g.cpu.registers with sp := u16_add sp 2 } dst.toRegister16 X }, ?_, ?_, ?_, ?_⟩
  · unfold Gba.execute Mem.get_u16
    rw [hsp, hlow]
    simp only [Option.bind_eq_bind, Option.some_bind]
    rw [hmod, hhigh]
    simp only [Option.some_bind]
    rw [lor_low_high X hX]
  · exact get_r16_set_r16 _ _ _ hX
  · cases dst <;> simp [Registers.set_r16, OpcodeRegister16.toRegister16, u16_add] <;> omega
  · rfl

/-- C6: push places the 16-bit value at SP-2 (low byte at the lower
address) after decrementing SP by 2; a pop (the `PopR16` arm) reads it
back and restores SP; and push/push/pop/pop returns the two values in
LIFO order with SP restored. -/
theorem c6_stack_discipline :
    ∀ (g : Gba) (X Y sp : Nat),
      g.cpu.registers.sp = sp → X < 65536 → Y < 65536 →
      4 ≤ sp → sp ≤ 0xFFFF →
      Mem.writable (sp - 1) → Mem.writable (sp - 2) →
      Mem.writable (sp - 3) → Mem.writable (sp - 4) →
      ∃ g1 g2 g3 g4 g5,
        g.push X = some (g1, 2)
        ∧ g1.cpu.registers.sp = sp - 2
        ∧ g1.mem.get_u8 (sp - 2) = some (X % 256)
        ∧ g1.mem.get_u8 (sp - 1) = some (X / 256)
        ∧ g1.execute (.PopR16 .BC) = some (g2, 3)
        ∧ g2.cpu.registers.get_r16 .BC = X
        ∧ g2.cpu.registers.sp = sp
        ∧ g1.push Y = some (g3, 2)
        ∧ g3.execute (.PopR16 .BC) = some (g4, 3)
        ∧ g4.cpu.registers.get_r16 .BC = Y
        ∧ g4.execute (.PopR16 .DE) = some (g5, 3)
        ∧ g5.cpu.registers.get_r16 .DE = X
        ∧ g5.cpu.registers.sp = sp := by
  intro g X Y sp hsp hX hY h4 hM w1 w2 w3 w4
  obtain ⟨mB, hpush1, hXlo, hXhi, hfr1⟩ := push_spec g X sp hsp hX (by omega) hM w2 w1
  have hXhi2 : mB.get_u8 (sp - 2 + 1) = some (X / 256) := by
    rw [show sp - 2 + 1 = sp - 1 from by omega]
    exact hXhi
  obtain ⟨g2, hpop1, hbc1, hsp2, hmem2⟩ :=
    pop_spec { g with cpu.registers.sp := sp - 2, mem := mB } .BC X (sp - 2) rfl hX
      (by omega) hXlo hXhi2
  have w4' : Mem.writable (sp - 2 - 2) := by
    rw [show sp - 2 - 2 = sp - 4 from by omega]
    exact w4
  have w3' : Mem.writable (sp - 2 - 1) := by
    rw [show sp - 2 - 1 = sp - 3 from by omega]
    exact w3
  obtain ⟨mD, hpush2, hYlo, hYhi, hfr2⟩ :=
    push_spec { g with cpu.registers.sp := sp - 2, mem := mB } Y (sp - 2) rfl hY
      (by omega) (by omega) w4' w3'
  have hYhi2 : mD.get_u8 (sp - 2 - 2 + 1) = some (Y / 256) := by
    rw [show sp - 2 - 2 + 1 = sp - 2 - 1 from by omega]
    exact hYhi
  obtain ⟨g4, hpop2, hbc2, hsp4, hmem4⟩ :=
    pop_spec { { g with cpu.registers.sp := sp - 2, mem := mB } with
        cpu.registers.sp := sp - 2 - 2, mem := mD } .BC Y (sp - 2 - 2) rfl hY
      (by omega) hYlo hYhi2
  have hX2lo : mD.get_u8 (sp - 2) = some (X % 256) := by
    rw [hfr2 (sp - 2) (by omega) (by omega) (by omega) (by omega) (by omega) (by omega)]
    exact hXlo
  have hX2hi : mD.get_u8 (sp - 1) = some (X / 256) := by
    rw [hfr2 (sp - 1) (by omega) (by omega) (by omega) (by omega) (by omega) (by omega)]
    exact hXhi
  have hsp4' : g4.cpu.registers.sp = sp - 2 := by
    rw [hsp4]
    omega
  have hlow4 : g4.mem.get_u8 (sp - 2) = some (X % 256) := by
    rw [hmem4]
    exact hX2lo
  have hhigh4 : g4.mem.get_u8 (sp - 2 + 1) = some (X / 256) := by
    rw [hmem4, show sp - 2 + 1 = sp - 1 from by omega]
    exact hX2hi
  obtain ⟨g5, hpop3, hde, hsp5, hmem5⟩ :=
    pop_spec g4 .DE X (sp - 2) hsp4' hX (by omega) hlow4 hhigh4
  refine ⟨_, g2, _, g4, g5, hpush1, rfl, hXlo, hXhi, hpop1, hbc1, ?_, hpush2, hpop2,
    hbc2, hpop3, hde, ?_⟩
  · rw [hsp2]
    omega
  · rw [hsp5]
    omega

/-- A concrete state for the C6 witness: power-on registers with the
stack pointer at `0xFFFE` (high RAM). -/
def c6Gba : Gba :=
  { cpu := { registers := ⟨0, 0, 0, 0, 0, 0, 0, 0, 0xFFFE, 0⟩, ime := 0, cache := 0 }
    mem := Mem.new [] }

/-- C6 witness: the stack discipline evaluated at `SP = 0xFFFE`,
`X = 0x1234`, `Y = 0xABCD`. -/
theorem c6_stack_discipline_witness :
    ∃ g1 g2 g3 g4 g5,
      c6Gba.push 0x1234 = some (g1, 2)
      ∧ g1.cpu.registers.sp = 0xFFFE - 2
      ∧ g1.mem.get_u8 (0xFFFE - 2) = some (0x1234 % 256)
      ∧ g1.mem.get_u8 (0xFFFE - 1) = some (0x1234 / 256)
      ∧ g1.execute (.PopR16 .BC) = some (g2, 3)
      ∧ g2.cpu.registers.get_r16 .BC = 0x1234
      ∧ g2.cpu.registers.sp = 0xFFFE
      ∧ g1.push 0xABCD = some (g3, 2)
      ∧ g3.execute (.PopR16 .BC) = some (g4, 3)
      ∧ g4.cpu.registers.get_r16 .BC = 0xABCD
      ∧ g4.execute (.PopR16 .DE) = some (g5, 3)
      ∧ g5.cpu.registers.get_r16 .DE = 0x1234
      ∧ g5.cpu.registers.sp = 0xFFFE :=
  c6_stack_discipline c6Gba 0x1234 0xABCD 0xFFFE rfl (by decide) (by decide) (by decide)
    (by decide) (by decide) (by decide) (by decide) (by decide)

end GB
